import Mathlib

/-!
Verification of the multiplayer coordination core of the wolfcha web game.

The definitions below are a shallow embedding of the TypeScript sources:
  * `src/lib/multiplayer/sync.ts`          (`SyncManager`)
  * `src/lib/multiplayer/manager.ts`       (`MultiplayerManager`)
  * `src/lib/multiplayer/game-sync.ts`     (`createSeatMappings`,
    `createMultiplayerGameState`, `assignRoles`, `shuffleArray`)
  * `src/lib/multiplayer/host-controller.ts` (`HostController.checkGameEnd`,
    `HostController.stop`, and the polling loop of `SyncManager`)
  * `src/store/multiplayer-atoms.ts`       (`isHostAtom`)

Asynchronous storage is modelled by a deterministic simulated store
(`SimStore`): a single room slot plus a counter of save attempts that are
still bound to fail, which is exactly the "fails its first k writes"
test double described in the specification.  Timestamps are passed in as
explicit `Nat` arguments.  `Math.random`-driven shuffling takes an
explicit oracle `Nat → Nat` supplying the random index for every step of
the Fisher–Yates loop.
-/

namespace Wolfcha

/-- Room status: `waiting | playing | ended` (storage interface). -/
inductive RStatus where
  | waiting
  | playing
  | ended
deriving DecidableEq, Repr

/-- Game role, from the role table in `assignRoles`. -/
inductive Role where
  | werewolf
  | seer
  | witch
  | hunter
  | guard
  | villager
deriving DecidableEq, Repr

/-- Alignment of a role (`getAlignment`). -/
inductive Alignment where
  | village
  | wolf
deriving DecidableEq, Repr

/-- Winner recorded by `checkGameEnd`. -/
inductive Winner where
  | village
  | wolf
deriving DecidableEq, Repr

/-- Game difficulty. -/
inductive Difficulty where
  | easy
  | normal
  | hard
deriving DecidableEq, Repr

/-- Game phase, the cases of `HostController.processPhase`. -/
inductive PhaseT where
  | SETUP
  | NIGHT_START
  | NIGHT_GUARD_ACTION
  | NIGHT_WOLF_ACTION
  | NIGHT_WITCH_ACTION
  | NIGHT_SEER_ACTION
  | NIGHT_RESOLVE
  | DAY_START
  | DAY_BADGE_SIGNUP
  | DAY_SPEECH
  | DAY_BADGE_SPEECH
  | DAY_PK_SPEECH
  | DAY_VOTE
  | DAY_BADGE_ELECTION
  | DAY_RESOLVE
  | GAME_END
deriving DecidableEq, Repr

/-- In-game player (`Player` of `@/types/game`, as used by the multiplayer
code).  `role` is an `Option` because `createMultiplayerGameState` reads
`roles[index]`, which is `undefined` past the end of the role list. -/
structure GPlayer where
  playerId : String
  seat : Nat
  displayName : String
  alive : Bool
  role : Option Role
  alignment : Alignment
  isHuman : Bool
deriving DecidableEq, Repr

/-- The slice of `GameState` the multiplayer subsystem reads and writes. -/
structure GameState where
  difficulty : Difficulty
  players : List GPlayer
  phase : PhaseT
  day : Nat
  currentSpeakerSeat : Option Nat
  winner : Option Winner
deriving DecidableEq, Repr

/-- Membership record (`Player` of the storage interface; the field list is
taken from the literal built in `MultiplayerManager.createRoom`). -/
structure MPlayer where
  id : String
  name : String
  isHost : Bool
  isReady : Bool
  isOnline : Bool
  lastSeen : Nat
deriving DecidableEq, Repr

/-- The shared room object (`RoomState` of the storage interface; the field
list is taken from the literal built in `MultiplayerManager.createRoom`,
plus the `gameState` payload attached while playing). -/
structure RoomState where
  id : String
  version : Nat
  hostId : String
  status : RStatus
  players : List MPlayer
  gameState : Option GameState
  createdAt : Nat
  updatedAt : Nat
deriving DecidableEq, Repr

/-- `HostController.checkGameEnd`, purified: instead of mutating
`currentGameState.winner` it returns the flag together with the winner it
assigns (`none` when the game goes on). -/
def checkGameEnd (gs : GameState) : Bool × Option Winner :=
  let alivePlayers := gs.players.filter (·.alive)
  let aliveWolves := alivePlayers.filter (fun p => p.role == some Role.werewolf)
  let aliveVillagers := alivePlayers.filter (fun p => p.role != some Role.werewolf)
  if aliveWolves.length = 0 then
    (true, some Winner.village)
  else if aliveVillagers.length ≤ aliveWolves.length then
    (true, some Winner.wolf)
  else
    (false, none)

/-- Number of alive werewolves in a game state. -/
def aliveWolfCount (gs : GameState) : Nat :=
  ((gs.players.filter (·.alive)).filter (fun p => p.role == some Role.werewolf)).length

/-- Number of alive non-werewolves in a game state. -/
def aliveVillagerCount (gs : GameState) : Nat :=
  ((gs.players.filter (·.alive)).filter (fun p => p.role != some Role.werewolf)).length

/-- Simulated storage backing one room key: the room currently stored (if
any) together with how many upcoming `saveRoom` calls still fail.  With
`failuresLeft = 0` this is the perfect in-memory fake store of §8; with
`failuresLeft = k` it is the "storage that fails its first k writes and
succeeds afterwards" test double. -/
structure SimStore where
  room : Option RoomState
  failuresLeft : Nat
deriving DecidableEq, Repr

/-- `storage.getRoom(roomId)` against the simulated store. -/
def SimStore.getRoom (st : SimStore) : Option RoomState :=
  st.room

/-- `storage.saveRoom(room)` against the simulated store: fails (returning
`false` and writing nothing) while failures remain, otherwise overwrites
the stored room unconditionally. -/
def SimStore.saveRoom (st : SimStore) (r : RoomState) : Bool × SimStore :=
  match st.failuresLeft with
  | 0 => (true, { st with room := some r })
  | Nat.succ k => (false, { room := st.room, failuresLeft := k })

/-- `storage.deleteRoom(roomId)` against the simulated store. -/
def SimStore.deleteRoom (st : SimStore) : SimStore :=
  { st with room := none }

/-- Loop body of `SyncManager.updateWithLock`: attempt index `i`, remaining
iterations `fuel` (initially `maxRetries`).  Each iteration fetches the
room (returning `null` when absent), applies the updater to a copy whose
`version` is already bumped and whose `updatedAt` is refreshed, and writes
it back; on a failed write it waits `100 * (i + 1)` ms and retries.  The
returned triple is (result, store after the call, backoff delays waited,
in order). -/
def updateWithLockGo (st : SimStore) (updater : RoomState → RoomState)
    (now : Nat) (i : Nat) : Nat → Option RoomState × SimStore × List Nat
  | 0 => (none, st, [])
  | Nat.succ fuel =>
    match st.getRoom with
    | none => (none, st, [])
    | some room =>
      let updated := updater { room with version := room.version + 1, updatedAt := now }
      match st.saveRoom updated with
      | (true, st') => (some updated, st', [])
      | (false, st') =>
        let rest := updateWithLockGo st' updater now (i + 1) fuel
        (rest.1, rest.2.1, 100 * (i + 1) :: rest.2.2)

/-- `SyncManager.updateWithLock(updater, maxRetries = 3)`. -/
def updateWithLock (st : SimStore) (updater : RoomState → RoomState)
    (now : Nat) (maxRetries : Nat := 3) : Option RoomState × SimStore × List Nat :=
  updateWithLockGo st updater now 0 maxRetries

/-- The room actually written by a successful attempt of `updateWithLock`:
the fetched room with `version` bumped and `updatedAt` refreshed, passed
through the updater. -/
def lockedWrite (room : RoomState) (updater : RoomState → RoomState) (now : Nat) : RoomState :=
  updater { room with version := room.version + 1, updatedAt := now }

/-- The distinct error-callback messages of `MultiplayerManager` (each
constructor stands for one of the literal strings passed to
`callbacks.onError`). -/
inductive ErrMsg where
  | storageNotInitialized
  | nameRequired
  | roomExists
  | createFailed
  | joinFailed
  | gameStarted
  | onlyHostCanStart
  | playersNotReady
deriving DecidableEq, Repr

/-- Local state of `MultiplayerManager`: `initialized` stands for
`storage ≠ null ∧ roomId ≠ null`, `hasSync` for `sync ≠ null`, and
`isHost` is the manager's own cached host flag. -/
structure Manager where
  initialized : Bool
  playerId : String
  playerName : Option String
  isHost : Bool
  hasSync : Bool
deriving DecidableEq, Repr

/-- `MultiplayerManager.getIsHost`. -/
def getIsHost (m : Manager) : Bool :=
  m.isHost

/-- `isHostAtom` of `multiplayer-atoms.ts`: recomputes host authority from
the current room and the local player id (`room?.hostId === playerId`). -/
def isHostAtom (room : Option RoomState) (playerId : String) : Bool :=
  match room with
  | some r => r.hostId == playerId
  | none => false

/-- The fresh room literal written by `createRoom`. -/
def freshRoom (pid name : String) (now : Nat) : RoomState :=
  { id := "room", version := 1, hostId := pid, status := RStatus.waiting,
    players := [{ id := pid, name := name, isHost := true, isReady := true,
                  isOnline := true, lastSeen := now }],
    gameState := none, createdAt := now, updatedAt := now }

/-- Updates the manager's player name when an explicit name is passed
(`if (playerName) this.setPlayerName(playerName)`). -/
def Manager.withName (m : Manager) (playerName : Option String) : Manager :=
  match playerName with
  | some n => { m with playerName := some n }
  | none => m

/-- `MultiplayerManager.createRoom`.  Returns the room (or `null`), the new
manager state, the store after the call, and the error messages emitted. -/
def createRoom (m : Manager) (playerName : Option String) (now : Nat) (st : SimStore) :
    Option RoomState × Manager × SimStore × List ErrMsg :=
  if !m.initialized then (none, m, st, [ErrMsg.storageNotInitialized])
  else
    let m := m.withName playerName
    match m.playerName with
    | none => (none, m, st, [ErrMsg.nameRequired])
    | some name =>
      let blocked : Bool :=
        match st.getRoom with
        | some existing => existing.status != RStatus.ended
        | none => false
      if blocked then (none, m, st, [ErrMsg.roomExists])
      else
        let room := freshRoom m.playerId name now
        match st.saveRoom room with
        | (true, st') => (some room, { m with isHost := true, hasSync := true }, st', [])
        | (false, st') => (none, m, st', [ErrMsg.createFailed])

/-- The updater used by `MultiplayerManager.updateOnlineStatus`. -/
def onlineUpdater (pid : String) (online : Bool) (now : Nat) : RoomState → RoomState :=
  fun room =>
    { room with players := room.players.map (fun p =>
        if p.id == pid then { p with isOnline := online, lastSeen := now } else p) }

/-- `MultiplayerManager.joinRoom`. -/
def joinRoom (m : Manager) (playerName : Option String) (now : Nat) (st : SimStore) :
    Option RoomState × Manager × SimStore × List ErrMsg :=
  if !m.initialized then (none, m, st, [ErrMsg.storageNotInitialized])
  else
    let m := m.withName playerName
    match m.playerName with
    | none => (none, m, st, [ErrMsg.nameRequired])
    | some name =>
      match st.getRoom with
      | none => createRoom m none now st
      | some room =>
        match room.players.find? (fun p => p.id == m.playerId) with
        | some existing =>
          let m' := { m with isHost := existing.isHost, hasSync := true }
          let upd := updateWithLock st (onlineUpdater m'.playerId true now) now 3
          (some room, m', upd.2.1, [])
        | none =>
          if room.status == RStatus.playing then (none, m, st, [ErrMsg.gameStarted])
          else
            let newPlayer : MPlayer :=
              { id := m.playerId, name := name, isHost := false, isReady := false,
                isOnline := true, lastSeen := now }
            let updatedRoom :=
              { room with
                version := room.version + 1,
                players := room.players ++ [newPlayer],
                updatedAt := now }
            match st.saveRoom updatedRoom with
            | (true, st') =>
              (some updatedRoom, { m with isHost := false, hasSync := true }, st', [])
            | (false, st') => (none, m, st', [ErrMsg.joinFailed])

/-- `MultiplayerManager.leaveRoom`.  Removal of the caller and (when the
cached host flag is set and players remain) the host transfer happen in
one `saveRoom` call; an empty room is deleted instead. -/
def leaveRoom (m : Manager) (now : Nat) (st : SimStore) : Manager × SimStore :=
  if !m.initialized || !m.hasSync then (m, st)
  else
    match st.getRoom with
    | none => (m, st)
    | some room =>
      let updatedPlayers := room.players.filter (fun p => p.id != m.playerId)
      match updatedPlayers with
      | [] => ({ m with hasSync := false, isHost := false }, st.deleteRoom)
      | first :: rest =>
        let players' :=
          if m.isHost then { first with isHost := true } :: rest else first :: rest
        let newHostId := if m.isHost then first.id else room.hostId
        let st' := (st.saveRoom
          { room with
            version := room.version + 1,
            hostId := newHostId,
            players := players',
            updatedAt := now }).2
        ({ m with hasSync := false, isHost := false }, st')

/-- The updater used by `MultiplayerManager.setReady`. -/
def readyUpdater (pid : String) (ready : Bool) : RoomState → RoomState :=
  fun room =>
    { room with players := room.players.map (fun p =>
        if p.id == pid then { p with isReady := ready } else p) }

/-- `MultiplayerManager.setReady`. -/
def setReady (m : Manager) (ready : Bool) (now : Nat) (st : SimStore) : SimStore :=
  if !m.hasSync then st
  else (updateWithLock st (readyUpdater m.playerId ready) now 3).2.1

/-- The updater used by `MultiplayerManager.startGame`: flip the status to
`playing` when everyone is ready, otherwise return the room it received. -/
def startGameUpdater : RoomState → RoomState :=
  fun room =>
    if room.players.all (·.isReady) then { room with status := RStatus.playing } else room

/-- `MultiplayerManager.startGame`: host-only (per the cached flag); the
boolean result is `room?.status === 'playing'` on the locked update's
result. -/
def startGame (m : Manager) (now : Nat) (st : SimStore) : Bool × SimStore × List ErrMsg :=
  if !m.isHost || !m.hasSync then (false, st, [ErrMsg.onlyHostCanStart])
  else
    let upd := updateWithLock st startGameUpdater now 3
    match upd.1 with
    | some room =>
      if room.status == RStatus.playing then (true, upd.2.1, [])
      else (false, upd.2.1, [ErrMsg.playersNotReady])
    | none => (false, upd.2.1, [ErrMsg.playersNotReady])

/-- The host invariant of the specification: exactly one player carries
`isHost = true` and its id equals `room.hostId`. -/
def hostInvariant (r : RoomState) : Prop :=
  (r.players.filter (·.isHost)).map (·.id) = [r.hostId]

instance (r : RoomState) : Decidable (hostInvariant r) := by
  unfold hostInvariant
  infer_instance

/-- Control state of `SyncManager`'s polling loop.  `timerSet` models a
pending `setTimeout(() => this.poll(status), interval)` (`intervalId`
non-null and not yet fired); `inFlight` models a `poll` whose
`storage.getRoom` is currently awaited; `lastVersion` is `this.lastVersion`. -/
structure SyncState where
  timerSet : Bool
  inFlight : Bool
  lastVersion : Nat
deriving DecidableEq, Repr

/-- Events of the polling loop: the scheduled timer fires (entering
`poll`), the awaited fetch completes (with the fetched room or `null` /
an error), or `stop()` is called. -/
inductive SyncEv where
  | fireTimer
  | completeFetch (fetched : Option RoomState)
  | stopCall
deriving DecidableEq, Repr

/-- One step of the polling loop, returning the next state and the rooms
passed to the `onUpdate` observer during the step.  Mirrors
`SyncManager.poll` and `SyncManager.stop`: the fetch's completion
notifies exactly when the fetched version exceeds `lastVersion`, and then
unconditionally schedules the next poll; `stop()` only clears the
scheduled timer. -/
def syncStep (s : SyncState) : SyncEv → SyncState × List RoomState
  | SyncEv.fireTimer =>
    if s.timerSet then ({ s with timerSet := false, inFlight := true }, []) else (s, [])
  | SyncEv.completeFetch fetched =>
    if s.inFlight then
      match fetched with
      | some room =>
        if s.lastVersion < room.version then
          ({ timerSet := true, inFlight := false, lastVersion := room.version }, [room])
        else ({ s with timerSet := true, inFlight := false }, [])
      | none => ({ s with timerSet := true, inFlight := false }, [])
    else (s, [])
  | SyncEv.stopCall => ({ s with timerSet := false }, [])

/-- Runs a sequence of polling-loop events, collecting all observer
notifications in order. -/
def syncRun (s : SyncState) : List SyncEv → SyncState × List RoomState
  | [] => (s, [])
  | e :: evs =>
    let step := syncStep s e
    let rest := syncRun step.1 evs
    (rest.1, step.2 ++ rest.2)

/-- `SyncManager.refresh`: one immediate fetch; on any fetched room it
overwrites `lastVersion` with the fetched version (even an older one),
notifies the observer, and returns the room; on `null`/error it returns
`null`.  Result: (new `lastVersion`, notifications, returned value). -/
def refresh (last : Nat) (fetched : Option RoomState) :
    Nat × List RoomState × Option RoomState :=
  match fetched with
  | some room => (room.version, [room], some room)
  | none => (last, [], none)

/-- One suspension point or synchronous effect inside a host-controller
phase handler: awaiting a pacing `delay` (a cancellable `setTimeout` in
`aiActionTimeout`), awaiting an external async call (`onAIAction` /
`onGameStateUpdate`), or the synchronous start of `transitionTo(p)` —
the phase-advancement write. -/
inductive HStep where
  | timerWait
  | externalWait
  | commitWrite (phase : PhaseT)
deriving DecidableEq, Repr

/-- State of an in-flight host-controller phase handler: whether the
controller is running, the rest of the handler's script (head = the
suspension currently awaited), and whether the awaited pacing timer is
still armed (`aiActionTimeout` not yet cleared). -/
structure HostState where
  isRunning : Bool
  script : List HStep
  timerArmed : Bool
deriving DecidableEq, Repr

/-- Events against a host-controller handler: the awaited suspension
resumes, or `HostController.stop()` is called. -/
inductive HostEv where
  | resume
  | stopCall
deriving DecidableEq, Repr

/-- Runs the synchronous prefix of a handler script: `transitionTo`'s
phase writes happen immediately; the script pauses at the next
suspension point.  Returns the emitted phase writes and the rest. -/
def runFree : List HStep → List PhaseT × List HStep
  | [] => ([], [])
  | HStep.timerWait :: r => ([], HStep.timerWait :: r)
  | HStep.externalWait :: r => ([], HStep.externalWait :: r)
  | HStep.commitWrite p :: r =>
    let rest := runFree r
    (p :: rest.1, rest.2)

/-- Whether the head of a script is a pacing delay; a freshly reached
`delay` call arms `aiActionTimeout` regardless of `isRunning`. -/
def armsTimer : List HStep → Bool
  | HStep.timerWait :: _ => true
  | _ => false

/-- One step of a host-controller handler.  `stop()` sets
`isRunning := false` and clears the armed pacing timer
(`clearTimeout(aiActionTimeout)`) — and nothing else: an awaited external
call is not cancellable, and when it resumes the handler proceeds (its
next `delay` arms a fresh timer, and `transitionTo` commits its write
without consulting `isRunning`). -/
def hostStep (h : HostState) : HostEv → HostState × List PhaseT
  | HostEv.stopCall => ({ h with isRunning := false, timerArmed := false }, [])
  | HostEv.resume =>
    match h.script with
    | HStep.timerWait :: rest =>
      if h.timerArmed then
        let run := runFree rest
        ({ h with script := run.2, timerArmed := armsTimer run.2 }, run.1)
      else (h, [])
    | HStep.externalWait :: rest =>
      let run := runFree rest
      ({ h with script := run.2, timerArmed := armsTimer run.2 }, run.1)
    | _ => (h, [])

/-- Runs a sequence of host-controller events, collecting the phase
writes in order. -/
def hostRun (h : HostState) : List HostEv → HostState × List PhaseT
  | [] => (h, [])
  | e :: evs =>
    let step := hostStep h e
    let rest := hostRun step.1 evs
    (rest.1, step.2 ++ rest.2)

/-- `SeatMapping` of `multiplayer-atoms.ts`. -/
structure SeatMapping where
  multiPlayerId : String
  multiPlayerName : String
  gameSeat : Nat
  gamePlayerId : String
deriving DecidableEq, Repr

/-- The `forEach` body of `createSeatMappings`, with the running element
index made explicit. -/
def createSeatMappingsGo (playerCount : Nat) : List MPlayer → Nat → List SeatMapping
  | [], _ => []
  | mp :: rest, index =>
    if index < playerCount then
      { multiPlayerId := mp.id, multiPlayerName := mp.name, gameSeat := index + 1,
        gamePlayerId := "player-" ++ toString (index + 1) }
        :: createSeatMappingsGo playerCount rest (index + 1)
    else
      createSeatMappingsGo playerCount rest (index + 1)

/-- `createSeatMappings(multiPlayers, playerCount)`: seats `1..` in join
order, only for indices below `playerCount`. -/
def createSeatMappings (multiPlayers : List MPlayer) (playerCount : Nat) : List SeatMapping :=
  createSeatMappingsGo playerCount multiPlayers 0

/-- The fixed role table `configs` of `assignRoles` (entries 4..12; any
other key yields the absent entry, i.e. `[]`). -/
def roleConfigs : Nat → List Role
  | 4 => [Role.werewolf, Role.seer, Role.villager, Role.villager]
  | 5 => [Role.werewolf, Role.seer, Role.witch, Role.villager, Role.villager]
  | 6 => [Role.werewolf, Role.werewolf, Role.seer, Role.witch, Role.villager, Role.villager]
  | 7 => [Role.werewolf, Role.werewolf, Role.seer, Role.witch, Role.hunter, Role.villager,
      Role.villager]
  | 8 => [Role.werewolf, Role.werewolf, Role.seer, Role.witch, Role.hunter, Role.guard,
      Role.villager, Role.villager]
  | 9 => [Role.werewolf, Role.werewolf, Role.werewolf, Role.seer, Role.witch, Role.hunter,
      Role.guard, Role.villager, Role.villager]
  | 10 => [Role.werewolf, Role.werewolf, Role.werewolf, Role.seer, Role.witch, Role.hunter,
      Role.guard, Role.villager, Role.villager, Role.villager]
  | 11 => [Role.werewolf, Role.werewolf, Role.werewolf, Role.seer, Role.witch, Role.hunter,
      Role.guard, Role.villager, Role.villager, Role.villager, Role.villager]
  | 12 => [Role.werewolf, Role.werewolf, Role.werewolf, Role.werewolf, Role.seer, Role.witch,
      Role.hunter, Role.guard, Role.villager, Role.villager, Role.villager, Role.villager]
  | _ => []

/-- One in-place swap `[a[i], a[j]] = [a[j], a[i]]` on a list. -/
def swapAt (l : List α) (i j : Nat) : List α :=
  match l[i]?, l[j]? with
  | some a, some b => (l.set i b).set j a
  | _, _ => l

/-- The Fisher–Yates loop of `shuffleArray`, counting `i` down from
`l.length - 1` to `1`; the oracle supplies the random draw for every `i`,
reduced `mod (i + 1)` exactly as `Math.floor(Math.random() * (i + 1))`
ranges over `0..i`. -/
def shuffleGo (oracle : Nat → Nat) : List α → Nat → List α
  | l, 0 => l
  | l, Nat.succ k => shuffleGo oracle (swapAt l (k + 1) (oracle (k + 1) % (k + 2))) k

/-- `shuffleArray`, randomness supplied by the oracle. -/
def shuffleArray (l : List α) (oracle : Nat → Nat) : List α :=
  shuffleGo oracle l (l.length - 1)

/-- `assignRoles(playerCount)`: clamp the count into `4..12`, look the
clamped count up in the table (falling back to the 6-player entry if the
lookup were empty, mirroring `configs[count] || configs[6]`), and shuffle. -/
def assignRoles (playerCount : Nat) (oracle : Nat → Nat) : List Role :=
  let count := min (max playerCount 4) 12
  let roles := roleConfigs count
  let roles := if roles.isEmpty then roleConfigs 6 else roles
  shuffleArray roles oracle

/-- `getAlignment(role)`, extended to the `undefined` role actually
reachable at the human-player call site: `undefined === 'Werewolf'` is
false, so an absent role maps to `village`. -/
def getAlignment (role : Option Role) : Alignment :=
  if role == some Role.werewolf then Alignment.wolf else Alignment.village

/-- The `seatMappings.map((mapping, index) => ...)` building the human
players of `createMultiplayerGameState`; `roles[index]` is `undefined`
past the end of the role list, hence the `Option`. -/
def humanPlayersGo (roles : List Role) : List SeatMapping → Nat → List GPlayer
  | [], _ => []
  | mapping :: rest, index =>
    { playerId := mapping.gamePlayerId, seat := mapping.gameSeat,
      displayName := mapping.multiPlayerName, alive := true, role := roles[index]?,
      alignment := getAlignment roles[index]?, isHuman := true }
      :: humanPlayersGo roles rest (index + 1)

/-- The AI back-fill loop `for (let i = players.length; i < totalSeats;
i++)` of `createMultiplayerGameState`; `roles[i] || 'Villager'` falls back
to a villager when the role list is exhausted. -/
def aiPlayersGo (roles : List Role) : Nat → Nat → List GPlayer
  | _, 0 => []
  | i, Nat.succ remaining =>
    let seat := i + 1
    let role := (roles[i]?).getD Role.villager
    { playerId := "ai-" ++ toString seat, seat := seat,
      displayName := "AI玩家" ++ toString seat, alive := true, role := some role,
      alignment := getAlignment (some role), isHuman := false }
      :: aiPlayersGo roles (i + 1) remaining

/-- `createMultiplayerGameState(multiPlayers, seatMappings, options?)`.
The base state produced by the external `createInitialGameState` is passed
in as `baseState` (its fields other than `difficulty`, `players` and
`phase` are kept as-is). -/
def createMultiplayerGameState (multiPlayers : List MPlayer)
    (seatMappings : List SeatMapping) (difficulty : Option Difficulty)
    (baseState : GameState) (oracle : Nat → Nat) : GameState :=
  let playerCount := multiPlayers.length
  let roles := assignRoles playerCount oracle
  let humans := humanPlayersGo roles seatMappings 0
  let totalSeats := max playerCount 6
  let players := humans ++ aiPlayersGo roles humans.length (totalSeats - humans.length)
  { baseState with
    difficulty := difficulty.getD Difficulty.normal,
    players := players,
    phase := PhaseT.SETUP }

/-- Client `a`'s manager before any call. -/
def mgrA : Manager :=
  { initialized := true, playerId := "a", playerName := none, isHost := false, hasSync := false }

/-- Client `b`'s manager before any call. -/
def mgrB : Manager := { mgrA with playerId := "b" }

/-- Client `c`'s manager before any call. -/
def mgrC : Manager := { mgrA with playerId := "c" }

/-- The shared store before any call: no room, fully reliable. -/
def st0 : SimStore := { room := none, failuresLeft := 0 }

/-- `a` creates the room at time 0. -/
def step1 : Option RoomState × Manager × SimStore × List ErrMsg :=
  createRoom mgrA (some "Alice") 0 st0

/-- `a`'s manager after creating. -/
def mA1 : Manager := step1.2.1

/-- Store after `a` created. -/
def st1 : SimStore := step1.2.2.1

/-- `b` joins at time 1. -/
def step2 : Option RoomState × Manager × SimStore × List ErrMsg :=
  joinRoom mgrB (some "Bob") 1 st1

/-- `b`'s manager after joining. -/
def mB1 : Manager := step2.2.1

/-- Store after `b` joined. -/
def st2 : SimStore := step2.2.2.1

/-- `a` (the host) leaves at time 2; the single stored write removes `a`
and makes `b` the host. -/
def step3 : Manager × SimStore := leaveRoom mA1 2 st2

/-- Store after `a` left: `hostId = "b"`. -/
def st3 : SimStore := step3.2

/-- `b` marks itself ready at time 3 (store after the locked update). -/
def st3r : SimStore := setReady mB1 true 3 st3

/-- `c` joins at time 4 (from the store where `b` is host). -/
def step4 : Option RoomState × Manager × SimStore × List ErrMsg :=
  joinRoom mgrC (some "Carol") 4 st3

/-- Store after `c` joined. -/
def st4 : SimStore := step4.2.2.1

/-- `b` — host per the stored room, but with a stale cached flag — leaves
at time 5. -/
def step5 : Manager × SimStore := leaveRoom mB1 5 st4

/-- Store after `b` left. -/
def st5 : SimStore := step5.2

/-- A sample stored room used by concrete witnesses: version 5, host `a`,
two players. -/
def sampleRoom : RoomState :=
  { id := "room", version := 5, hostId := "a", status := RStatus.waiting,
    players :=
      [ { id := "a", name := "Alice", isHost := true, isReady := true,
          isOnline := true, lastSeen := 0 },
        { id := "b", name := "Bob", isHost := false, isReady := false,
          isOnline := true, lastSeen := 1 } ],
    gameState := none, createdAt := 0, updatedAt := 1 }

/-- An updater that overwrites the protocol-managed `version` field.
`updateWithLock` bumps `version` *before* applying the updater, so such an
updater defeats the version increment. -/
def clobberUpdater : RoomState → RoomState :=
  fun r => { r with version := 0 }

/-- A manager that holds the cached host flag and a live sync (as after a
successful `createRoom`). -/
def mgrAHost : Manager := { mgrA with isHost := true, hasSync := true }

/-- `sampleRoom` with every player ready. -/
def readyRoom : RoomState :=
  { sampleRoom with players := sampleRoom.players.map (fun p => { p with isReady := true }) }

/-- Projection of a membership record to the data the host invariant
depends on. -/
def hostProj (p : MPlayer) : String × Bool :=
  (p.id, p.isHost)

/-- The room stored after `b` joined (used to instantiate witnesses). -/
def room2 : RoomState := st2.room.getD sampleRoom

/-- `b`'s membership record inside `room2`. -/
def bRec : MPlayer :=
  { id := "b", name := "Bob", isHost := false, isReady := false, isOnline := true, lastSeen := 1 }

/-- A neutral base game state standing in for the external
`createInitialGameState()` result in concrete witnesses. -/
def base0 : GameState :=
  { difficulty := Difficulty.normal, players := [], phase := PhaseT.SETUP,
    day := 1, currentSpeakerSeat := none, winner := none }

/-- A multiplayer membership record used to build concrete participant
lists. -/
def mkMP (i nm : String) : MPlayer :=
  { id := i, name := nm, isHost := false, isReady := true, isOnline := true, lastSeen := 0 }

/-- Four concrete participants. -/
def mps4 : List MPlayer :=
  [mkMP "a" "Alice", mkMP "b" "Bob", mkMP "c" "Carol", mkMP "d" "Dave"]

/-- Ten concrete participants. -/
def mps10 : List MPlayer :=
  [mkMP "p1" "P1", mkMP "p2" "P2", mkMP "p3" "P3", mkMP "p4" "P4", mkMP "p5" "P5",
   mkMP "p6" "P6", mkMP "p7" "P7", mkMP "p8" "P8", mkMP "p9" "P9", mkMP "p10" "P10"]

/-- Thirteen concrete participants (above the role table's 4..12 range). -/
def mps13 : List MPlayer :=
  mps10 ++ [mkMP "p11" "P11", mkMP "p12" "P12", mkMP "p13" "P13"]

/-- C5: for every game state, `checkGameEnd` returns `(true, village)` when
no werewolf is alive, `(true, wolf)` when the alive werewolves are at least
as many as the alive non-werewolves, and `(false, none)` otherwise. -/
theorem checkGameEnd_spec (gs : GameState) :
    checkGameEnd gs =
      (if aliveWolfCount gs = 0 then (true, some Winner.village)
       else if aliveVillagerCount gs ≤ aliveWolfCount gs then (true, some Winner.wolf)
       else (false, none)) := by
  rfl

theorem updateWithLockGo_room_none (updater : RoomState → RoomState)
    (now : Nat) : ∀ (st : SimStore) (i fuel : Nat), st.room = none →
    updateWithLockGo st updater now i fuel = (none, st, []) := by
  intro st i fuel h
  cases fuel with
  | zero => rfl
  | succ fuel => simp [updateWithLockGo, SimStore.getRoom, h]

/-- Full characterization of the retry loop over the simulated store: with
a room present and `f` saves still bound to fail, the loop either exhausts
its `fuel` (when `fuel ≤ f`), returning `null` after waiting the backoffs
of every attempt, or succeeds at attempt `f + 1`, returning the locked
write and having waited the backoffs of the `f` failed attempts. -/
theorem updateWithLockGo_spec (updater : RoomState → RoomState) (now : Nat) :
    ∀ (fuel : Nat) (st : SimStore) (room : RoomState) (i : Nat),
    st.room = some room →
    updateWithLockGo st updater now i fuel =
      (if fuel ≤ st.failuresLeft then
        (none, { room := some room, failuresLeft := st.failuresLeft - fuel },
          (List.range' (i + 1) fuel).map (100 * ·))
      else
        (some (lockedWrite room updater now),
          { room := some (lockedWrite room updater now), failuresLeft := 0 },
          (List.range' (i + 1) st.failuresLeft).map (100 * ·))) := by
  have hrange : ∀ s n : Nat, List.range' s (n + 1) = s :: List.range' (s + 1) n :=
    fun _ _ => rfl
  intro fuel
  induction fuel with
  | zero =>
    intro st room i h
    obtain ⟨r, f⟩ := st
    simp only at h
    subst h
    simp [updateWithLockGo]
  | succ fuel ih =>
    intro st room i h
    obtain ⟨r, f⟩ := st
    simp only at h
    subst h
    cases f with
    | zero =>
      simp [updateWithLockGo, SimStore.getRoom, SimStore.saveRoom, lockedWrite]
    | succ k =>
      have hrec := ih { room := some room, failuresLeft := k } room (i + 1) rfl
      simp only [updateWithLockGo, SimStore.getRoom, SimStore.saveRoom, hrec]
      by_cases hle : fuel ≤ k
      · have hle' : fuel + 1 ≤ k + 1 := by omega
        simp only [if_pos hle, if_pos hle']
        have hsub : k - fuel = k + 1 - (fuel + 1) := by omega
        rw [hrange (i + 1) fuel, hsub]
        simp
      · have hle' : ¬ (fuel + 1 ≤ k + 1) := by omega
        simp only [if_neg hle, if_neg hle']
        rw [hrange (i + 1) k]
        simp [lockedWrite]

/-- C1: `updateWithLock` returns `null` whenever the room is absent at a
fetch; on failed writes it waits backoffs of `100 * attemptNumber`
(attempts numbered from 1) and retries the fetch-apply-write cycle, at
most `maxRetries` times in total, returning `null` once they are
exhausted (`n ≤ failuresLeft`) and the locked write as soon as a save
succeeds (`failuresLeft < n`); in particular, against a store failing its
first 2 writes, `maxRetries ≥ 3` yields a non-null result and
`maxRetries = 2` yields `null`. -/
theorem updateWithLock_retry_spec (updater : RoomState → RoomState) (now : Nat) :
    (∀ (st : SimStore) (n : Nat), st.room = none →
      (updateWithLock st updater now n).1 = none)
    ∧ (∀ (st : SimStore) (room : RoomState) (n : Nat), st.room = some room →
        n ≤ st.failuresLeft →
        updateWithLock st updater now n =
          (none, { room := some room, failuresLeft := st.failuresLeft - n },
            (List.range' 1 n).map (100 * ·)))
    ∧ (∀ (st : SimStore) (room : RoomState) (n : Nat), st.room = some room →
        st.failuresLeft < n →
        updateWithLock st updater now n =
          (some (lockedWrite room updater now),
            { room := some (lockedWrite room updater now), failuresLeft := 0 },
            (List.range' 1 st.failuresLeft).map (100 * ·))) := by
  refine ⟨?_, ?_, ?_⟩
  · intro st n h
    rw [updateWithLock, updateWithLockGo_room_none updater now st 0 n h]
  · intro st room n h hle
    rw [updateWithLock, updateWithLockGo_spec updater now n st room 0 h, if_pos hle]
  · intro st room n h hlt
    rw [updateWithLock, updateWithLockGo_spec updater now n st room 0 h,
      if_neg (by omega)]

/-- Witness for `updateWithLock_retry_spec` at concrete inputs: an absent
room, and a store that fails its first 2 writes, polled with
`maxRetries = 2` (null, backoffs 100 then 200) and `maxRetries = 3`
(success). -/
theorem updateWithLock_retry_spec_witness :
    ((st0.room = none) ∧ (updateWithLock st0 id 0 3).1 = none)
    ∧ (((⟨some sampleRoom, 2⟩ : SimStore).room = some sampleRoom) ∧ 2 ≤ 2 ∧
        updateWithLock ⟨some sampleRoom, 2⟩ id 0 2 =
          (none, { room := some sampleRoom, failuresLeft := 2 - 2 },
            (List.range' 1 2).map (100 * ·)))
    ∧ (2 < 3 ∧
        updateWithLock ⟨some sampleRoom, 2⟩ id 0 3 =
          (some (lockedWrite sampleRoom id 0),
            { room := some (lockedWrite sampleRoom id 0), failuresLeft := 0 },
            (List.range' 1 2).map (100 * ·))) :=
  ⟨⟨rfl, (updateWithLock_retry_spec id 0).1 st0 3 rfl⟩,
   ⟨rfl, by decide,
    (updateWithLock_retry_spec id 0).2.1 ⟨some sampleRoom, 2⟩ sampleRoom 2 rfl (by decide)⟩,
   ⟨by decide,
    (updateWithLock_retry_spec id 0).2.2 ⟨some sampleRoom, 2⟩ sampleRoom 3 rfl (by decide)⟩⟩

/-- C2 counterexample: at the concrete store holding `sampleRoom`
(version 5), a successful `updateWithLock` whose updater changed the
`version` field returns (and stores) a room of version 0, not
`5 + 1 = 6`. -/
theorem version_increment_cex :
    (updateWithLock ⟨some sampleRoom, 0⟩ clobberUpdater 9 3).1.map (·.version) = some 0
    ∧ ((updateWithLock ⟨some sampleRoom, 0⟩ clobberUpdater 9 3).2.1.room.map
        (·.version)) = some 0
    ∧ sampleRoom.version + 1 = 6 :=
  ⟨rfl, rfl, rfl⟩

/-- C2 (amended): for every updater that preserves the `version` field of
the room it receives — as all updaters in this codebase do — a successful
`updateWithLock` returns and stores a room whose version is exactly the
fetched version plus 1; and `joinRoom`'s and `leaveRoom`'s direct
`saveRoom` writes likewise store a room whose version is the version read
plus 1. -/
theorem version_increment_spec :
    (∀ (st : SimStore) (updater : RoomState → RoomState) (now n : Nat)
        (room res : RoomState) (st' : SimStore) (ds : List Nat),
        (∀ r, (updater r).version = r.version) →
        st.room = some room →
        updateWithLock st updater now n = (some res, st', ds) →
        res.version = room.version + 1 ∧ st'.room = some res)
    ∧ (∀ (m : Manager) (name : Option String) (now : Nat) (st : SimStore)
        (room res : RoomState) (m' : Manager) (st' : SimStore) (es : List ErrMsg),
        st.room = some room →
        room.players.find? (fun p => p.id == m.playerId) = none →
        joinRoom m name now st = (some res, m', st', es) →
        res.version = room.version + 1 ∧ st'.room = some res)
    ∧ (∀ (m : Manager) (now : Nat) (st : SimStore) (room r' : RoomState),
        m.initialized = true → m.hasSync = true →
        st.failuresLeft = 0 → st.room = some room →
        (leaveRoom m now st).2.room = some r' →
        r'.version = room.version + 1) := by
  refine ⟨?_, ?_, ?_⟩
  · intro st updater now n room res st' ds hpres hroom heq
    by_cases hle : n ≤ st.failuresLeft
    · rw [updateWithLock, updateWithLockGo_spec updater now n st room 0 hroom,
        if_pos hle] at heq
      exact absurd (congrArg Prod.fst heq) (by simp)
    · rw [updateWithLock, updateWithLockGo_spec updater now n st room 0 hroom,
        if_neg hle] at heq
      injection heq with h1 hrest
      injection hrest with h2 h3
      injection h1 with h1
      subst h1
      subst h2
      refine ⟨?_, rfl⟩
      show (lockedWrite room updater now).version = room.version + 1
      unfold lockedWrite
      rw [hpres]
  · intro m name now st room res m' st' es hroom hfind heq
    have hpid : (m.withName name).playerId = m.playerId := by
      cases name <;> rfl
    cases hinit : m.initialized with
    | false =>
      rw [joinRoom, hinit] at heq
      simp at heq
    | true =>
      rw [joinRoom, hinit] at heq
      simp only [Bool.not_true, Bool.false_eq_true, if_false] at heq
      cases hname : (m.withName name).playerName with
      | none =>
        rw [hname] at heq
        simp at heq
      | some nm =>
        rw [hname, SimStore.getRoom, hroom, hpid] at heq
        dsimp only at heq
        rw [hfind] at heq
        dsimp only at heq
        cases hstatus : room.status == RStatus.playing with
        | true =>
          rw [hstatus] at heq
          simp at heq
        | false =>
          rw [hstatus] at heq
          simp only [Bool.false_eq_true, if_false] at heq
          cases hf : st.failuresLeft with
          | zero =>
            obtain ⟨stroom, sf⟩ := st
            simp only at hf
            subst hf
            simp only [SimStore.saveRoom] at heq
            injection heq with h1 hrest
            injection hrest with h2 hrest
            injection hrest with h3 h4
            injection h1 with h1
            subst h1
            subst h3
            exact ⟨rfl, rfl⟩
          | succ k =>
            obtain ⟨stroom, sf⟩ := st
            simp only at hf
            subst hf
            simp only [SimStore.saveRoom] at heq
            simp at heq
  · intro m now st room r' hinit hsync hf hroom hres
    rw [leaveRoom, hinit, hsync] at hres
    simp only [Bool.not_true, Bool.or_self, Bool.false_eq_true, if_false] at hres
    rw [SimStore.getRoom, hroom] at hres
    dsimp only at hres
    cases hfilter : room.players.filter (fun p => p.id != m.playerId) with
    | nil =>
      rw [hfilter] at hres
      simp [SimStore.deleteRoom] at hres
    | cons first rest =>
      rw [hfilter] at hres
      dsimp only at hres
      obtain ⟨stroom, sf⟩ := st
      simp only at hf
      subst hf
      simp only [SimStore.saveRoom] at hres
      injection hres with hres
      rw [← hres]

/-- Witness for `version_increment_spec`: a concrete locked update on
`sampleRoom` (version 5 → 6), the concrete join of `b` (version 1 → 2)
and the concrete leave of `a` (version 2 → 3) from the scenario trace. -/
theorem version_increment_spec_witness :
    ((lockedWrite sampleRoom id 9).version = sampleRoom.version + 1
      ∧ (SimStore.mk (some (lockedWrite sampleRoom id 9)) 0).room
          = some (lockedWrite sampleRoom id 9))
    ∧ ((step2.1.getD sampleRoom).version = (st1.room.getD sampleRoom).version + 1
      ∧ st2.room = some (step2.1.getD sampleRoom))
    ∧ (st3.room.getD sampleRoom).version = (st2.room.getD sampleRoom).version + 1 :=
  ⟨version_increment_spec.1 ⟨some sampleRoom, 0⟩ id 9 3 sampleRoom
      (lockedWrite sampleRoom id 9) ⟨some (lockedWrite sampleRoom id 9), 0⟩ []
      (fun _ => rfl) rfl (by decide),
   version_increment_spec.2.1 mgrB (some "Bob") 1 st1 (st1.room.getD sampleRoom)
      (step2.1.getD sampleRoom) step2.2.1 st2 step2.2.2.2 (by decide) (by decide) (by decide),
   version_increment_spec.2.2 mA1 2 st2 (st2.room.getD sampleRoom)
      (st3.room.getD sampleRoom) (by decide) (by decide) (by decide) (by decide) (by decide)⟩

/-- C4 counterexample: with one player unready (in `sampleRoom`, version
5), `startGame` returns false and reports not-all-ready, but the stored
room is *not* unchanged — the no-op updater still writes a room with a
bumped version; and with everyone ready but storage failing, the call
reports the same `playersNotReady` error, i.e. the refusal is not
reported distinctly from a storage failure. -/
theorem startGame_cex :
    (startGame mgrAHost 9 ⟨some sampleRoom, 0⟩).1 = false
    ∧ (startGame mgrAHost 9 ⟨some sampleRoom, 0⟩).2.1.room ≠ some sampleRoom
    ∧ (startGame mgrAHost 9 ⟨some sampleRoom, 0⟩).2.2 = [ErrMsg.playersNotReady]
    ∧ (startGame mgrAHost 9 ⟨some readyRoom, 3⟩).1 = false
    ∧ (startGame mgrAHost 9 ⟨some readyRoom, 3⟩).2.2 = [ErrMsg.playersNotReady] := by
  decide

/-- C4 (amended): `startGame` is host-only (per the cached flag) and
returns true and flips the status to `playing` exactly when every player
is ready; when a player is unready it returns false and leaves status and
players unchanged — but still performs a write whose `version` and
`updatedAt` are bumped — and the refusal is reported with the same
`playersNotReady` message that an exhausted storage failure produces
(not distinctly). -/
theorem startGame_spec :
    (∀ (m : Manager) (now : Nat) (st : SimStore), m.isHost = false →
      startGame m now st = (false, st, [ErrMsg.onlyHostCanStart]))
    ∧ (∀ (m : Manager) (now : Nat) (st : SimStore) (room : RoomState),
        m.isHost = true → m.hasSync = true → st.failuresLeft = 0 → st.room = some room →
        room.players.all (·.isReady) = false → room.status = RStatus.waiting →
        startGame m now st =
          (false,
            { room := some { room with version := room.version + 1, updatedAt := now },
              failuresLeft := 0 },
            [ErrMsg.playersNotReady]))
    ∧ (∀ (m : Manager) (now : Nat) (st : SimStore) (room : RoomState),
        m.isHost = true → m.hasSync = true → st.failuresLeft = 0 → st.room = some room →
        room.players.all (·.isReady) = true →
        startGame m now st =
          (true,
            { room := some
                { room with
                  version := room.version + 1,
                  status := RStatus.playing,
                  updatedAt := now },
              failuresLeft := 0 },
            []))
    ∧ (∀ (m : Manager) (now : Nat) (st : SimStore) (room : RoomState),
        m.isHost = true → m.hasSync = true → st.room = some room → 3 ≤ st.failuresLeft →
        (startGame m now st).1 = false
          ∧ (startGame m now st).2.2 = [ErrMsg.playersNotReady]) := by
  have hfirst : ∀ (st : SimStore) (room : RoomState) (now : Nat), st.failuresLeft = 0 →
      st.room = some room →
      updateWithLock st startGameUpdater now 3 =
        (some (lockedWrite room startGameUpdater now),
          { room := some (lockedWrite room startGameUpdater now), failuresLeft := 0 }, []) := by
    intro st room now hf hroom
    rw [updateWithLock, updateWithLockGo_spec startGameUpdater now 3 st room 0 hroom,
      if_neg (by omega), hf]
    rfl
  have hfail : ∀ (st : SimStore) (room : RoomState) (now : Nat), 3 ≤ st.failuresLeft →
      st.room = some room →
      (updateWithLock st startGameUpdater now 3).1 = none := by
    intro st room now hf hroom
    rw [updateWithLock, updateWithLockGo_spec startGameUpdater now 3 st room 0 hroom,
      if_pos hf]
  refine ⟨?_, ?_, ?_, ?_⟩
  · intro m now st hm
    simp [startGame, hm]
  · intro m now st room hm hsync hf hroom hall hstatus
    have hlw : lockedWrite room startGameUpdater now =
        { room with version := room.version + 1, updatedAt := now } := by
      unfold lockedWrite startGameUpdater
      dsimp only
      simp [hall]
    rw [startGame, hm, hsync]
    dsimp only
    rw [hfirst st room now hf hroom, hlw]
    dsimp only
    rw [hstatus]
    rfl
  · intro m now st room hm hsync hf hroom hall
    have hlw : lockedWrite room startGameUpdater now =
        { room with
          version := room.version + 1,
          status := RStatus.playing,
          updatedAt := now } := by
      unfold lockedWrite startGameUpdater
      dsimp only
      simp [hall]
    rw [startGame, hm, hsync]
    dsimp only
    rw [hfirst st room now hf hroom, hlw]
    rfl
  · intro m now st room hm hsync hroom hf
    rw [startGame, hm, hsync]
    dsimp only
    cases hupd : updateWithLock st startGameUpdater now 3 with
    | mk fst rest =>
      have : fst = none := by
        have := hfail st room now hf hroom
        rw [hupd] at this
        exact this
      subst this
      exact ⟨rfl, rfl⟩

/-- Witness for `startGame_spec`: the four branches at concrete inputs —
a non-host manager, an unready `sampleRoom`, the all-ready `readyRoom`,
and the all-ready room over storage failing 3 times. -/
theorem startGame_spec_witness :
    (startGame mgrA 9 st0 = (false, st0, [ErrMsg.onlyHostCanStart]))
    ∧ startGame mgrAHost 9 ⟨some sampleRoom, 0⟩ =
        (false,
          { room := some { sampleRoom with version := sampleRoom.version + 1, updatedAt := 9 },
            failuresLeft := 0 },
          [ErrMsg.playersNotReady])
    ∧ startGame mgrAHost 9 ⟨some readyRoom, 0⟩ =
        (true,
          { room := some
              { readyRoom with
                version := readyRoom.version + 1,
                status := RStatus.playing,
                updatedAt := 9 },
            failuresLeft := 0 },
          [])
    ∧ ((startGame mgrAHost 9 ⟨some readyRoom, 3⟩).1 = false
        ∧ (startGame mgrAHost 9 ⟨some readyRoom, 3⟩).2.2 = [ErrMsg.playersNotReady]) :=
  ⟨startGame_spec.1 mgrA 9 st0 rfl,
   startGame_spec.2.1 mgrAHost 9 ⟨some sampleRoom, 0⟩ sampleRoom rfl rfl rfl rfl
     (by decide) rfl,
   startGame_spec.2.2.1 mgrAHost 9 ⟨some readyRoom, 0⟩ readyRoom rfl rfl rfl rfl (by decide),
   startGame_spec.2.2.2 mgrAHost 9 ⟨some readyRoom, 3⟩ readyRoom rfl rfl rfl (by decide)⟩

theorem map_eq_singleton_elim {α β : Type} (f : α → β) (y : β) :
    ∀ l : List α, l.map f = [y] → ∃ a, l = [a] ∧ f a = y := by
  intro l h
  cases l with
  | nil => simp at h
  | cons a t =>
    simp only [List.map_cons, List.cons.injEq] at h
    obtain ⟨h1, h2⟩ := h
    rw [List.map_eq_nil_iff] at h2
    exact ⟨a, by rw [h2], h1⟩

theorem hostProj_filter_map : ∀ (l l' : List MPlayer),
    l.map hostProj = l'.map hostProj →
    (l.filter (·.isHost)).map (·.id) = (l'.filter (·.isHost)).map (·.id) := by
  intro l
  induction l with
  | nil =>
    intro l' h
    have : l'.map hostProj = [] := by simpa using h.symm
    have : l' = [] := List.map_eq_nil_iff.mp this
    subst this
    rfl
  | cons p t ih =>
    intro l' h
    cases l' with
    | nil => simp at h
    | cons q t' =>
      simp only [List.map_cons, List.cons.injEq, hostProj, Prod.mk.injEq] at h
      obtain ⟨⟨hid, hhost⟩, htail⟩ := h
      simp only [List.filter_cons, hhost, hid]
      cases q.isHost with
      | false => exact ih t' htail
      | true => simp [ih t' htail, hid]

theorem hostInvariant_mem {r : RoomState} (hinv : hostInvariant r) :
    ∀ p ∈ r.players, p.isHost = true → p.id = r.hostId := by
  intro p hp hhost
  have hmem : p ∈ r.players.filter (·.isHost) :=
    List.mem_filter.mpr ⟨hp, hhost⟩
  have : p.id ∈ (r.players.filter (·.isHost)).map (·.id) := List.mem_map_of_mem _ hmem
  rw [hinv] at this
  simpa using this

theorem filter_drop_nonhost (pid : String) :
    ∀ (l : List MPlayer) (hostId : String), hostId ≠ pid →
    (l.filter (·.isHost)).map (·.id) = [hostId] →
    ((l.filter (fun p => p.id != pid)).filter (·.isHost)).map (·.id) = [hostId] := by
  intro l hostId hne hfilter
  obtain ⟨h, hl, hid⟩ := map_eq_singleton_elim _ _ _ hfilter
  simp only [List.filter_filter]
  have key : ∀ t : List MPlayer, t.filter (·.isHost) = [h] →
      t.filter (fun a => a.isHost && (a.id != pid)) = [h] := by
    intro t
    induction t with
    | nil => simp
    | cons x xs ihx =>
      intro hx
      simp only [List.filter_cons] at hx ⊢
      cases hxh : x.isHost with
      | false =>
        rw [hxh] at hx
        simp only [hxh, Bool.false_and, Bool.false_eq_true, if_false]
        simp only [Bool.false_eq_true, if_false] at hx
        exact ihx hx
      | true =>
        rw [hxh] at hx
        simp only [if_true] at hx
        simp only [List.cons.injEq] at hx
        obtain ⟨hx1, hx2⟩ := hx
        subst hx1
        have hhid : (x.id != pid) = true := by
          rw [hid]
          simpa using hne
        have hFnil : xs.filter (fun a => a.isHost && (a.id != pid)) = [] := by
          rw [List.filter_eq_nil_iff]
          intro a ha
          have : ¬ (a.isHost = true) := List.filter_eq_nil_iff.mp hx2 a ha
          simp [this]
        simp [hxh, hhid, hFnil]
  have := key l hl
  simp only [this, List.map_cons, List.map_nil, hid]

theorem hostProj_map_update : ∀ (l : List MPlayer) (f : MPlayer → MPlayer),
    (∀ p, (f p).id = p.id ∧ (f p).isHost = p.isHost) →
    (l.map f).map hostProj = l.map hostProj := by
  intro l f hf
  induction l with
  | nil => rfl
  | cons p t ih => simp [hostProj, (hf p).1, (hf p).2, ih]

theorem createRoom_success_inv (m : Manager) (pn : Option String) (now : Nat)
    (st : SimStore) (res : RoomState) (m' : Manager) (st' : SimStore) (es : List ErrMsg)
    (heq : createRoom m pn now st = (some res, m', st', es)) :
    hostInvariant res ∧ st'.room = some res := by
  cases hinit : m.initialized with
  | false =>
    rw [createRoom, hinit] at heq
    simp at heq
  | true =>
    rw [createRoom, hinit] at heq
    simp only [Bool.not_true, Bool.false_eq_true, if_false] at heq
    cases hname : (m.withName pn).playerName with
    | none =>
      rw [hname] at heq
      simp at heq
    | some nm =>
      rw [hname] at heq
      dsimp only at heq
      cases hblocked : (match st.getRoom with
        | some existing => existing.status != RStatus.ended
        | none => false : Bool) with
      | true =>
        rw [hblocked] at heq
        simp at heq
      | false =>
        rw [hblocked] at heq
        simp only [Bool.false_eq_true, if_false] at heq
        obtain ⟨stroom, sf⟩ := st
        cases sf with
        | zero =>
          simp only [SimStore.saveRoom] at heq
          injection heq with h1 hrest
          injection hrest with h2 hrest
          injection hrest with h3 h4
          injection h1 with h1
          subst h1
          subst h3
          refine ⟨?_, rfl⟩
          simp [hostInvariant, freshRoom, List.filter]
        | succ k =>
          simp only [SimStore.saveRoom] at heq
          simp at heq

theorem joinRoom_append_inv (m : Manager) (pn : Option String) (now : Nat)
    (st : SimStore) (room res : RoomState) (m' : Manager) (st' : SimStore)
    (es : List ErrMsg) (hroom : st.room = some room)
    (hfind : room.players.find? (fun p => p.id == m.playerId) = none)
    (hinv : hostInvariant room)
    (heq : joinRoom m pn now st = (some res, m', st', es)) :
    hostInvariant res := by
  have hpid : (m.withName pn).playerId = m.playerId := by
    cases pn <;> rfl
  cases hinit : m.initialized with
  | false =>
    rw [joinRoom, hinit] at heq
    simp at heq
  | true =>
    rw [joinRoom, hinit] at heq
    simp only [Bool.not_true, Bool.false_eq_true, if_false] at heq
    cases hname : (m.withName pn).playerName with
    | none =>
      rw [hname] at heq
      simp at heq
    | some nm =>
      rw [hname, SimStore.getRoom, hroom, hpid] at heq
      dsimp only at heq
      rw [hfind] at heq
      dsimp only at heq
      cases hstatus : room.status == RStatus.playing with
      | true =>
        rw [hstatus] at heq
        simp at heq
      | false =>
        rw [hstatus] at heq
        simp only [Bool.false_eq_true, if_false] at heq
        obtain ⟨stroom, sf⟩ := st
        cases sf with
        | zero =>
          simp only [SimStore.saveRoom] at heq
          injection heq with h1 hrest
          injection h1 with h1
          subst h1
          unfold hostInvariant
          dsimp only
          rw [List.filter_append]
          have hnew : List.filter (fun p => p.isHost)
              [({ id := m.playerId, name := nm, isHost := false, isReady := false,
                  isOnline := true, lastSeen := now } : MPlayer)] = [] := by
            simp [List.filter]
          rw [hnew, List.append_nil]
          exact hinv
        | succ k =>
          simp only [SimStore.saveRoom] at heq
          simp at heq

theorem lockedUpdate_inv (st : SimStore) (u : RoomState → RoomState) (now n : Nat)
    (room res : RoomState) (st' : SimStore) (ds : List Nat)
    (hu : ∀ r, (u r).hostId = r.hostId ∧ (u r).players.map hostProj = r.players.map hostProj)
    (hroom : st.room = some room) (hinv : hostInvariant room)
    (heq : updateWithLock st u now n = (some res, st', ds)) :
    hostInvariant res := by
  by_cases hle : n ≤ st.failuresLeft
  · rw [updateWithLock, updateWithLockGo_spec u now n st room 0 hroom, if_pos hle] at heq
    exact absurd (congrArg Prod.fst heq) (by simp)
  · rw [updateWithLock, updateWithLockGo_spec u now n st room 0 hroom, if_neg hle] at heq
    injection heq with h1 hrest
    injection h1 with h1
    subst h1
    show (List.filter (·.isHost) (lockedWrite room u now).players).map (·.id) =
      [(lockedWrite room u now).hostId]
    have hh : (lockedWrite room u now).hostId = room.hostId := (hu _).1
    have hp : (lockedWrite room u now).players.map hostProj = room.players.map hostProj :=
      (hu _).2
    rw [hh, hostProj_filter_map _ _ hp]
    exact hinv

theorem updaters_preserve_hostProj (pid : String) (b : Bool) (t : Nat) (r : RoomState) :
    ((readyUpdater pid b r).hostId = r.hostId
      ∧ (readyUpdater pid b r).players.map hostProj = r.players.map hostProj)
    ∧ ((onlineUpdater pid b t r).hostId = r.hostId
      ∧ (onlineUpdater pid b t r).players.map hostProj = r.players.map hostProj)
    ∧ ((startGameUpdater r).hostId = r.hostId
      ∧ (startGameUpdater r).players.map hostProj = r.players.map hostProj) := by
  refine ⟨⟨rfl, ?_⟩, ⟨rfl, ?_⟩, ?_⟩
  · exact hostProj_map_update _ _ (by intro p; constructor <;> (cases hp : p.id == pid <;> simp [hp]))
  · exact hostProj_map_update _ _ (by intro p; constructor <;> (cases hp : p.id == pid <;> simp [hp]))
  · unfold startGameUpdater
    cases hall : r.players.all (·.isReady) <;> simp [hall]

theorem leaveRoom_inv (m : Manager) (now : Nat) (st : SimStore) (room : RoomState)
    (hinit : m.initialized = true) (hsync : m.hasSync = true)
    (hf : st.failuresLeft = 0) (hroom : st.room = some room)
    (hinv : hostInvariant room) (hflag : m.isHost = (room.hostId == m.playerId)) :
    ((leaveRoom m now st).2.room = none
      ∨ ∃ r', (leaveRoom m now st).2.room = some r' ∧ hostInvariant r')
    ∧ (∀ (first : MPlayer) (rest : List MPlayer),
        room.players.filter (fun p => p.id != m.playerId) = first :: rest →
        room.hostId = m.playerId →
        (leaveRoom m now st).2.room =
          some { room with
                 version := room.version + 1,
                 hostId := first.id,
                 players := { first with isHost := true } :: rest,
                 updatedAt := now }) := by
  rw [leaveRoom, hinit, hsync]
  simp only [Bool.not_true, Bool.or_self, Bool.false_eq_true, if_false]
  rw [SimStore.getRoom, hroom]
  dsimp only
  cases hfilter : room.players.filter (fun p => p.id != m.playerId) with
  | nil =>
    refine ⟨Or.inl rfl, ?_⟩
    intro first rest habs
    simp at habs
  | cons first rest =>
    dsimp only
    obtain ⟨stroom, sf⟩ := st
    simp only at hf
    subst hf
    simp only [SimStore.saveRoom]
    cases hhost : m.isHost with
    | true =>
      rw [hhost] at hflag
      have hbeq : room.hostId = m.playerId := by
        have : (room.hostId == m.playerId) = true := hflag.symm
        exact beq_iff_eq.mp this
      have hrest : ∀ p ∈ rest, ¬ (p.isHost = true) := by
        intro p hp hisHost
        have hpmem : p ∈ room.players.filter (fun q => q.id != m.playerId) := by
          rw [hfilter]
          exact List.mem_cons_of_mem _ hp
        obtain ⟨hpl, hppred⟩ := List.mem_filter.mp hpmem
        have hpidh : p.id = room.hostId := hostInvariant_mem hinv p hpl hisHost
        rw [hpidh, hbeq] at hppred
        simp at hppred
      have hnil : rest.filter (·.isHost) = [] :=
        List.filter_eq_nil_iff.mpr (by intro a ha hab; exact hrest a ha hab)
      constructor
      · refine Or.inr ⟨_, rfl, ?_⟩
        unfold hostInvariant
        dsimp only
        simp [List.filter_cons, hnil]
      · intro f r hfr hh
        injection hfr with hfr1 hfr2
        subst hfr1
        subst hfr2
        rfl
    | false =>
      rw [hhost] at hflag
      have hne : room.hostId ≠ m.playerId := by
        intro hcontra
        rw [hcontra] at hflag
        simp at hflag
      constructor
      · refine Or.inr ⟨_, rfl, ?_⟩
        unfold hostInvariant
        dsimp only
        have hinv' : (room.players.filter (·.isHost)).map (·.id) = [room.hostId] := hinv
        have := filter_drop_nonhost m.playerId room.players room.hostId hne hinv'
        rw [hfilter] at this
        exact this
      · intro f r hfr hh
        exact absurd hh hne

/-- C3 (amended): after every successful room write the stored room
satisfies the host invariant — exactly one player has `isHost = true` and
its id equals `room.hostId` — provided, for `leaveRoom`, that the
departing manager's *cached* host flag agrees with the stored room
(`m.isHost = (room.hostId == m.playerId)`); under that proviso a
departing host with survivors transfers host to the first remaining
player in join order in the same single write as the removal.  (Without
the proviso the invariant can be lost: see the counterexample.) -/
theorem host_invariant_spec :
    (∀ (m : Manager) (pn : Option String) (now : Nat) (st : SimStore)
        (res : RoomState) (m' : Manager) (st' : SimStore) (es : List ErrMsg),
        createRoom m pn now st = (some res, m', st', es) →
        hostInvariant res ∧ st'.room = some res)
    ∧ (∀ (m : Manager) (pn : Option String) (now : Nat) (st : SimStore)
        (room res : RoomState) (m' : Manager) (st' : SimStore) (es : List ErrMsg),
        st.room = some room →
        room.players.find? (fun p => p.id == m.playerId) = none →
        hostInvariant room →
        joinRoom m pn now st = (some res, m', st', es) →
        hostInvariant res)
    ∧ (∀ (st : SimStore) (u : RoomState → RoomState) (now n : Nat)
        (room res : RoomState) (st' : SimStore) (ds : List Nat),
        (∀ r, (u r).hostId = r.hostId
          ∧ (u r).players.map hostProj = r.players.map hostProj) →
        st.room = some room → hostInvariant room →
        updateWithLock st u now n = (some res, st', ds) →
        hostInvariant res)
    ∧ (∀ (pid : String) (b : Bool) (t : Nat) (r : RoomState),
        ((readyUpdater pid b r).hostId = r.hostId
          ∧ (readyUpdater pid b r).players.map hostProj = r.players.map hostProj)
        ∧ ((onlineUpdater pid b t r).hostId = r.hostId
          ∧ (onlineUpdater pid b t r).players.map hostProj = r.players.map hostProj)
        ∧ ((startGameUpdater r).hostId = r.hostId
          ∧ (startGameUpdater r).players.map hostProj = r.players.map hostProj))
    ∧ (∀ (m : Manager) (now : Nat) (st : SimStore) (room : RoomState),
        m.initialized = true → m.hasSync = true → st.failuresLeft = 0 →
        st.room = some room → hostInvariant room →
        m.isHost = (room.hostId == m.playerId) →
        ((leaveRoom m now st).2.room = none
          ∨ ∃ r', (leaveRoom m now st).2.room = some r' ∧ hostInvariant r')
        ∧ (∀ (first : MPlayer) (rest : List MPlayer),
            room.players.filter (fun p => p.id != m.playerId) = first :: rest →
            room.hostId = m.playerId →
            (leaveRoom m now st).2.room =
              some { room with
                     version := room.version + 1,
                     hostId := first.id,
                     players := { first with isHost := true } :: rest,
                     updatedAt := now })) :=
  ⟨fun m pn now st res m' st' es heq => createRoom_success_inv m pn now st res m' st' es heq,
   fun m pn now st room res m' st' es h1 h2 h3 h4 =>
     joinRoom_append_inv m pn now st room res m' st' es h1 h2 h3 h4,
   fun st u now n room res st' ds h1 h2 h3 h4 =>
     lockedUpdate_inv st u now n room res st' ds h1 h2 h3 h4,
   fun pid b t r => updaters_preserve_hostProj pid b t r,
   fun m now st room h1 h2 h3 h4 h5 h6 => leaveRoom_inv m now st room h1 h2 h3 h4 h5 h6⟩

/-- Witness for `host_invariant_spec`: the invariant established by `a`'s
concrete `createRoom`, preserved by `b`'s concrete `joinRoom` and by the
concrete ready-toggle locked update, the updater side conditions at
concrete arguments, and `a`'s concrete departure transferring host to `b`
in the single stored write. -/
theorem host_invariant_spec_witness :
    (hostInvariant (step1.1.getD sampleRoom) ∧ st1.room = some (step1.1.getD sampleRoom))
    ∧ hostInvariant (step2.1.getD sampleRoom)
    ∧ hostInvariant ((updateWithLock st3 (readyUpdater "b" true) 3 3).1.getD sampleRoom)
    ∧ ((readyUpdater "b" true sampleRoom).hostId = sampleRoom.hostId
        ∧ (readyUpdater "b" true sampleRoom).players.map hostProj
            = sampleRoom.players.map hostProj)
    ∧ ((leaveRoom mA1 2 st2).2.room = none
        ∨ ∃ r', (leaveRoom mA1 2 st2).2.room = some r' ∧ hostInvariant r')
    ∧ (leaveRoom mA1 2 st2).2.room =
        some { room2 with
               version := room2.version + 1,
               hostId := bRec.id,
               players := { bRec with isHost := true } :: [],
               updatedAt := 2 } := by
  refine ⟨?_, ?_, ?_, ?_, ?_, ?_⟩
  · exact host_invariant_spec.1 mgrA (some "Alice") 0 st0 (step1.1.getD sampleRoom) mA1 st1
      step1.2.2.2 (by decide)
  · exact host_invariant_spec.2.1 mgrB (some "Bob") 1 st1 (st1.room.getD sampleRoom)
      (step2.1.getD sampleRoom) mB1 st2 step2.2.2.2 (by decide) (by decide) (by decide)
      (by decide)
  · exact host_invariant_spec.2.2.1 st3 (readyUpdater "b" true) 3 3
      (st3.room.getD sampleRoom)
      ((updateWithLock st3 (readyUpdater "b" true) 3 3).1.getD sampleRoom)
      st3r ((updateWithLock st3 (readyUpdater "b" true) 3 3).2.2)
      (fun r => (updaters_preserve_hostProj "b" true 0 r).1) (by decide) (by decide)
      (by decide)
  · exact (host_invariant_spec.2.2.2.1 "b" true 0 sampleRoom).1
  · exact (host_invariant_spec.2.2.2.2 mA1 2 st2 room2 (by decide) (by decide) (by decide)
      (by decide) (by decide) (by decide)).1
  · exact (host_invariant_spec.2.2.2.2 mA1 2 st2 room2 (by decide) (by decide) (by decide)
      (by decide) (by decide) (by decide)).2 bRec [] (by decide) (by decide)

/-- C3 counterexample: in the concrete trace, the room stored after `c`
joined has `hostId = "b"` with members `b` (the host) and `c`; `b` then
leaves, but because `b`'s manager still carries the stale cached flag
`isHost = false` from its original join, `leaveRoom` performs no host
transfer and stores a *hostless* room: `hostId` still `"b"`, players
`["c"]`, no player with `isHost = true`.  The departing player was host
per the stored room and one player remained, yet no transfer happened in
the write. -/
theorem host_invariant_cex :
    st4.room.map (·.hostId) = some "b"
    ∧ st4.room.map (fun r => r.players.map (·.id)) = some ["b", "c"]
    ∧ st4.room.map (fun r => (r.players.filter (·.isHost)).map (·.id)) = some ["b"]
    ∧ getIsHost mB1 = false
    ∧ st5.room.map (fun r => r.players.map (·.id)) = some ["c"]
    ∧ st5.room.map (·.hostId) = some "b"
    ∧ ¬ hostInvariant (st5.room.getD sampleRoom) := by
  decide

/-- C8 counterexample: after `a`'s departure transferred the host role to
`b` in the stored room (`hostId = "b"`, recomputation `isHostAtom` says
`b` is host), `b`'s manager still answers `getIsHost() = false` from its
independently cached flag, and `b`'s host-only `startGame` refuses with
the only-host error even though every player in the stored room is ready
— host authority is *not* recomputed from `room.hostId` by the manager. -/
theorem isHost_recompute_cex :
    isHostAtom st3.room "b" = true
    ∧ getIsHost mB1 = false
    ∧ st3r.room.map (fun r => r.players.all (·.isReady)) = some true
    ∧ (startGame mB1 4 st3r).1 = false
    ∧ (startGame mB1 4 st3r).2.2 = [ErrMsg.onlyHostCanStart] := by
  decide

/-- C8 (amended): the jotai-level `isHostAtom` does recompute host
authority from `room.hostId === playerId` on every read; but
`MultiplayerManager.getIsHost` returns an independently cached boolean
(`this.isHost`), set only by create/join/reconnect/leave, so a host
transfer performed by another client's `leaveRoom` is not observed by the
surviving client's manager, whose host-only `startGame` refuses according
to the stale flag rather than the current `room.hostId`. -/
theorem isHost_caching_spec :
    (∀ (r : RoomState) (pid : String), isHostAtom (some r) pid = (r.hostId == pid))
    ∧ (∀ pid : String, isHostAtom none pid = false)
    ∧ (∀ m : Manager, getIsHost m = m.isHost)
    ∧ (getIsHost mB1 = false ∧ isHostAtom st3.room "b" = true
        ∧ (startGame mB1 4 st3r).1 = false) :=
  ⟨fun _ _ => rfl, fun _ => rfl, fun _ => rfl, by decide⟩

theorem syncRun_silent : ∀ (evs : List SyncEv) (s : SyncState),
    s.timerSet = false → s.inFlight = false → (syncRun s evs).2 = [] := by
  intro evs
  induction evs with
  | nil => intro s _ _; rfl
  | cons e evs ih =>
    intro s h1 h2
    obtain ⟨ts, inf, lv⟩ := s
    simp only at h1 h2
    subst h1
    subst h2
    cases e with
    | fireTimer => simp [syncRun, syncStep, ih ⟨false, false, lv⟩ rfl rfl]
    | completeFetch f => simp [syncRun, syncStep, ih ⟨false, false, lv⟩ rfl rfl]
    | stopCall => simp [syncRun, syncStep, ih ⟨false, false, lv⟩ rfl rfl]

theorem hostRun_silent : ∀ (evs : List HostEv) (h : HostState),
    (h.script = [] ∨ ∃ rest, h.script = HStep.timerWait :: rest) →
    h.timerArmed = false → (hostRun h evs).2 = [] := by
  intro evs
  induction evs with
  | nil => intro h _ _; rfl
  | cons e evs ih =>
    intro h hs ha
    obtain ⟨ir, sc, ar⟩ := h
    simp only at ha hs
    subst ha
    cases e with
    | stopCall =>
      have := ih ⟨false, sc, false⟩ (by simpa using hs) rfl
      simp [hostRun, hostStep, this]
    | resume =>
      rcases hs with h0 | ⟨rest, h0⟩
      · subst h0
        have := ih ⟨ir, [], false⟩ (Or.inl rfl) rfl
        simp [hostRun, hostStep, this]
      · subst h0
        have := ih ⟨ir, HStep.timerWait :: rest, false⟩ (Or.inr ⟨rest, rfl⟩) rfl
        simp [hostRun, hostStep, this]

/-- C9 counterexample: cancellation is not immediate when work is in
flight at the moment of `stop()`.  Sync engine: the timer fires (a poll's
fetch is now awaited), `stop()` is called, then the fetch completes — the
observer is still notified with the fetched room and the loop reschedules
itself (`timerSet` is true again after the trace), so polls continue
after `stop()` returned.  Host controller: a `handleVote`-shaped handler
is awaiting an external `onAIAction` call when `stop()` arrives; the call
resumes, the handler arms a fresh pacing delay (overwriting the cleared
`aiActionTimeout`), and `transitionTo` still commits the `DAY_RESOLVE`
phase write after `stop()`. -/
theorem stop_cancellation_cex :
    (syncRun { timerSet := true, inFlight := false, lastVersion := 0 }
        [SyncEv.fireTimer, SyncEv.stopCall, SyncEv.completeFetch (some sampleRoom)]).2
      = [sampleRoom]
    ∧ (syncRun { timerSet := true, inFlight := false, lastVersion := 0 }
        [SyncEv.fireTimer, SyncEv.stopCall, SyncEv.completeFetch (some sampleRoom)]).1.timerSet
      = true
    ∧ (hostRun { isRunning := true,
                 script := [HStep.externalWait, HStep.timerWait,
                            HStep.commitWrite PhaseT.DAY_RESOLVE],
                 timerArmed := false }
        [HostEv.stopCall, HostEv.resume, HostEv.resume]).2 = [PhaseT.DAY_RESOLVE] := by
  decide

/-- C9 (amended): `stop()` on the sync engine clears the scheduled poll
timer and, when no fetch is in flight at that moment, no further poll or
observer callback ever fires; a fetch in flight still completes, may
notify, and reschedules the loop.  `stop()` on the host controller
clears the running flag and the armed pacing timer; when the in-flight
handler is only awaiting that pacing delay (or has finished), nothing
further fires — but an awaited external call is not cancelled (see the
counterexample). -/
theorem stop_cancellation_spec :
    (∀ s : SyncState, (syncStep s SyncEv.stopCall).1.timerSet = false
      ∧ (syncStep s SyncEv.stopCall).2 = [])
    ∧ (∀ (s : SyncState) (evs : List SyncEv), s.inFlight = false →
        (syncRun (syncStep s SyncEv.stopCall).1 evs).2 = [])
    ∧ (∀ h : HostState, (hostStep h HostEv.stopCall).1.isRunning = false
      ∧ (hostStep h HostEv.stopCall).1.timerArmed = false
      ∧ (hostStep h HostEv.stopCall).2 = [])
    ∧ (∀ (h : HostState) (evs : List HostEv),
        (h.script = [] ∨ ∃ rest, h.script = HStep.timerWait :: rest) →
        (hostRun (hostStep h HostEv.stopCall).1 evs).2 = []) := by
  refine ⟨fun s => ⟨rfl, rfl⟩, ?_, fun h => ⟨rfl, rfl, rfl⟩, ?_⟩
  · intro s evs hin
    exact syncRun_silent evs _ rfl hin
  · intro h evs hs
    exact hostRun_silent evs _ (by simpa using hs) rfl

/-- Witness for `stop_cancellation_spec`: concrete silent runs — a sync
engine stopped between polls stays silent over a further timer-fire and
fetch-completion, and a host handler stopped while awaiting only its
pacing delay stays silent over further resumes. -/
theorem stop_cancellation_spec_witness :
    ((⟨true, false, 7⟩ : SyncState).inFlight = false
      ∧ (syncRun (syncStep ⟨true, false, 7⟩ SyncEv.stopCall).1
          [SyncEv.fireTimer, SyncEv.completeFetch (some sampleRoom)]).2 = [])
    ∧ (((⟨true, [HStep.timerWait, HStep.commitWrite PhaseT.GAME_END], true⟩ :
          HostState).script = []
        ∨ ∃ rest, (⟨true, [HStep.timerWait, HStep.commitWrite PhaseT.GAME_END], true⟩ :
          HostState).script = HStep.timerWait :: rest)
      ∧ (hostRun (hostStep ⟨true, [HStep.timerWait, HStep.commitWrite PhaseT.GAME_END], true⟩
          HostEv.stopCall).1 [HostEv.resume, HostEv.resume]).2 = []) :=
  ⟨⟨rfl, stop_cancellation_spec.2.1 ⟨true, false, 7⟩
      [SyncEv.fireTimer, SyncEv.completeFetch (some sampleRoom)] rfl⟩,
   ⟨Or.inr ⟨[HStep.commitWrite PhaseT.GAME_END], rfl⟩,
    stop_cancellation_spec.2.2.2
      ⟨true, [HStep.timerWait, HStep.commitWrite PhaseT.GAME_END], true⟩
      [HostEv.resume, HostEv.resume]
      (Or.inr ⟨[HStep.commitWrite PhaseT.GAME_END], rfl⟩)⟩⟩

/-- C10: a poll whose fetch completes notifies the observer exactly when
the fetched room's version strictly exceeds `lastVersion`, in which case
`lastVersion` becomes the fetched version and exactly that room is
delivered; `lastVersion` never decreases under any polling-loop event;
`refresh` by contrast notifies on any fetched room and overwrites
`lastVersion` with the fetched version unconditionally, returning the
room (and returns `null` quietly when the fetch yields nothing). -/
theorem poll_notify_spec :
    (∀ (s : SyncState) (fetched : Option RoomState), s.inFlight = true →
      ((syncStep s (SyncEv.completeFetch fetched)).2 ≠ []
        ↔ ∃ room, fetched = some room ∧ s.lastVersion < room.version)
      ∧ (∀ room, fetched = some room → s.lastVersion < room.version →
          (syncStep s (SyncEv.completeFetch fetched)).1.lastVersion = room.version
          ∧ (syncStep s (SyncEv.completeFetch fetched)).2 = [room]))
    ∧ (∀ (s : SyncState) (e : SyncEv), s.lastVersion ≤ (syncStep s e).1.lastVersion)
    ∧ (∀ (last : Nat) (room : RoomState),
        refresh last (some room) = (room.version, [room], some room))
    ∧ (∀ last : Nat, refresh last none = (last, [], none)) := by
  refine ⟨?_, ?_, fun _ _ => rfl, fun _ => rfl⟩
  · intro s fetched hin
    constructor
    · cases fetched with
      | none => simp [syncStep, hin]
      | some room =>
        by_cases hv : s.lastVersion < room.version
        · simp [syncStep, hin, hv]
        · simp [syncStep, hin, hv]
    · intro room hfe hv
      subst hfe
      constructor
      · simp [syncStep, hin, hv]
      · simp [syncStep, hin, hv]
  · intro s e
    cases e with
    | fireTimer => cases hts : s.timerSet <;> simp [syncStep, hts]
    | stopCall => simp [syncStep]
    | completeFetch f =>
      cases hin : s.inFlight with
      | false => simp [syncStep, hin]
      | true =>
        cases f with
        | none => simp [syncStep, hin]
        | some room =>
          by_cases hv : s.lastVersion < room.version
          · simp [syncStep, hin, hv]
            omega
          · simp [syncStep, hin, hv]

/-- Witness for `poll_notify_spec` at a concrete in-flight poll state
(`lastVersion = 3`) receiving `sampleRoom` (version 5): the observer is
notified with exactly that room and `lastVersion` becomes 5. -/
theorem poll_notify_spec_witness :
    (((syncStep ⟨false, true, 3⟩ (SyncEv.completeFetch (some sampleRoom))).2 ≠ []
        ↔ ∃ room, some sampleRoom = some room ∧ 3 < room.version)
      ∧ ((syncStep ⟨false, true, 3⟩ (SyncEv.completeFetch (some sampleRoom))).1.lastVersion
            = sampleRoom.version
        ∧ (syncStep ⟨false, true, 3⟩ (SyncEv.completeFetch (some sampleRoom))).2
            = [sampleRoom])) :=
  ⟨(poll_notify_spec.1 ⟨false, true, 3⟩ (some sampleRoom) rfl).1,
   (poll_notify_spec.1 ⟨false, true, 3⟩ (some sampleRoom) rfl).2 sampleRoom rfl (by decide)⟩

theorem cons_get_set_perm {α : Type} : ∀ (l : List α) (m : Nat) (x : α)
    (h : m < l.length), List.Perm (l[m] :: l.set m x) (x :: l) := by
  intro l
  induction l with
  | nil =>
    intro m x h
    simp at h
  | cons y t ih =>
    intro m x h
    cases m with
    | zero =>
      simpa using List.Perm.swap x y t
    | succ m =>
      have h' : m < t.length := by simpa using h
      have step1 : List.Perm (t[m] :: y :: t.set m x) (y :: t[m] :: t.set m x) :=
        List.Perm.swap y (t[m]) (t.set m x)
      have step2 : List.Perm (y :: t[m] :: t.set m x) (y :: x :: t) := (ih m x h').cons y
      have step3 : List.Perm (y :: x :: t) (x :: y :: t) := List.Perm.swap x y t
      simpa using (step1.trans step2).trans step3

theorem set_set_perm {α : Type} : ∀ (l : List α) (i j : Nat)
    (hi : i < l.length) (hj : j < l.length),
    List.Perm ((l.set i l[j]).set j l[i]) l := by
  intro l
  induction l with
  | nil =>
    intro i j hi
    simp at hi
  | cons y t ih =>
    intro i j hi hj
    cases i with
    | zero =>
      cases j with
      | zero => simp
      | succ j =>
        have hj' : j < t.length := by simpa using hj
        simpa using cons_get_set_perm t j y hj'
    | succ i =>
      have hi' : i < t.length := by simpa using hi
      cases j with
      | zero =>
        simpa using cons_get_set_perm t i y hi'
      | succ j =>
        have hj' : j < t.length := by simpa using hj
        simpa using (ih i j hi' hj').cons y

theorem swapAt_perm {α : Type} (l : List α) (i j : Nat) : List.Perm (swapAt l i j) l := by
  unfold swapAt
  cases hi : l[i]? with
  | none => exact List.Perm.refl l
  | some a =>
    cases hj : l[j]? with
    | none => exact List.Perm.refl l
    | some b =>
      obtain ⟨hi', hha⟩ := List.getElem?_eq_some.mp hi
      obtain ⟨hj', hhb⟩ := List.getElem?_eq_some.mp hj
      rw [← hha, ← hhb]
      exact set_set_perm l i j hi' hj'

theorem shuffleGo_perm {α : Type} (oracle : Nat → Nat) :
    ∀ (k : Nat) (l : List α), List.Perm (shuffleGo oracle l k) l := by
  intro k
  induction k with
  | zero => intro l; exact List.Perm.refl l
  | succ k ih =>
    intro l
    exact (ih _).trans (swapAt_perm l (k + 1) (oracle (k + 1) % (k + 2)))

theorem shuffleArray_perm {α : Type} (l : List α) (oracle : Nat → Nat) :
    List.Perm (shuffleArray l oracle) l :=
  shuffleGo_perm oracle (l.length - 1) l

theorem roleConfigs_length : ∀ c : Nat, 4 ≤ c → c ≤ 12 → (roleConfigs c).length = c := by
  intro c h1 h2
  interval_cases c <;> rfl

theorem assignRoles_perm (n : Nat) (oracle : Nat → Nat) :
    List.Perm (assignRoles n oracle) (roleConfigs (min (max n 4) 12)) := by
  unfold assignRoles
  dsimp only
  have hlen : (roleConfigs (min (max n 4) 12)).length = min (max n 4) 12 :=
    roleConfigs_length _ (by omega) (by omega)
  have hne : (roleConfigs (min (max n 4) 12)).isEmpty = false := by
    cases h : roleConfigs (min (max n 4) 12) with
    | nil =>
      rw [h] at hlen
      simp at hlen
      omega
    | cons r rs => rfl
  rw [hne]
  simp only [Bool.false_eq_true, if_false]
  exact shuffleArray_perm _ oracle

theorem assignRoles_length (n : Nat) (oracle : Nat → Nat) :
    (assignRoles n oracle).length = min (max n 4) 12 := by
  rw [(assignRoles_perm n oracle).length_eq]
  exact roleConfigs_length _ (by omega) (by omega)

theorem humanGo_roles : ∀ (ms : List SeatMapping) (roles : List Role) (idx : Nat),
    (humanPlayersGo roles ms idx).map (·.role)
      = ((roles.drop idx).take ms.length).map some
        ++ List.replicate (ms.length - (roles.drop idx).length) none := by
  intro ms
  induction ms with
  | nil =>
    intro roles idx
    simp [humanPlayersGo]
  | cons mp rest ih =>
    intro roles idx
    simp only [humanPlayersGo, List.map_cons]
    rw [ih]
    cases hd : roles.drop idx with
    | nil =>
      have h1 : roles[idx]? = none := by rw [← List.head?_drop, hd]; rfl
      have h2 : roles.drop (idx + 1) = [] := by rw [← List.tail_drop, hd]; rfl
      simp [h1, h2, List.replicate_succ]
    | cons r rs =>
      have h1 : roles[idx]? = some r := by rw [← List.head?_drop, hd]; rfl
      have h2 : roles.drop (idx + 1) = rs := by rw [← List.tail_drop, hd]; rfl
      simp [h1, h2, Nat.succ_sub_succ]

theorem humanGo_seats : ∀ (ms : List SeatMapping) (roles : List Role) (idx : Nat),
    (humanPlayersGo roles ms idx).map (·.seat) = ms.map (·.gameSeat) := by
  intro ms
  induction ms with
  | nil => intro roles idx; rfl
  | cons mp rest ih =>
    intro roles idx
    simp only [humanPlayersGo, List.map_cons, ih]

theorem humanGo_length : ∀ (ms : List SeatMapping) (roles : List Role) (idx : Nat),
    (humanPlayersGo roles ms idx).length = ms.length := by
  intro ms
  induction ms with
  | nil => intro roles idx; rfl
  | cons mp rest ih =>
    intro roles idx
    simp only [humanPlayersGo, List.length_cons, ih]

theorem humanGo_alive : ∀ (ms : List SeatMapping) (roles : List Role) (idx : Nat),
    ∀ p ∈ humanPlayersGo roles ms idx, p.alive = true := by
  intro ms
  induction ms with
  | nil =>
    intro roles idx p hp
    simp [humanPlayersGo] at hp
  | cons mp rest ih =>
    intro roles idx p hp
    simp only [humanPlayersGo, List.mem_cons] at hp
    rcases hp with hp | hp
    · rw [hp]
    · exact ih roles (idx + 1) p hp

theorem aiGo_roles : ∀ (n i : Nat) (roles : List Role),
    (aiPlayersGo roles i n).map (·.role)
      = ((roles.drop i).take n).map some
        ++ List.replicate (n - (roles.drop i).length) (some Role.villager) := by
  intro n
  induction n with
  | zero =>
    intro i roles
    simp [aiPlayersGo]
  | succ n ih =>
    intro i roles
    simp only [aiPlayersGo, List.map_cons]
    rw [ih]
    cases hd : roles.drop i with
    | nil =>
      have h1 : roles[i]? = none := by rw [← List.head?_drop, hd]; rfl
      have h2 : roles.drop (i + 1) = [] := by rw [← List.tail_drop, hd]; rfl
      simp [h1, h2, List.replicate_succ]
    | cons r rs =>
      have h1 : roles[i]? = some r := by rw [← List.head?_drop, hd]; rfl
      have h2 : roles.drop (i + 1) = rs := by rw [← List.tail_drop, hd]; rfl
      simp [h1, h2, Nat.succ_sub_succ]

theorem aiGo_length : ∀ (n i : Nat) (roles : List Role),
    (aiPlayersGo roles i n).length = n := by
  intro n
  induction n with
  | zero => intro i roles; rfl
  | succ n ih =>
    intro i roles
    simp only [aiPlayersGo, List.length_cons, ih]

theorem aiGo_alive : ∀ (n i : Nat) (roles : List Role),
    ∀ p ∈ aiPlayersGo roles i n, p.alive = true := by
  intro n
  induction n with
  | zero =>
    intro i roles p hp
    simp [aiPlayersGo] at hp
  | succ n ih =>
    intro i roles p hp
    simp only [aiPlayersGo, List.mem_cons] at hp
    rcases hp with hp | hp
    · rw [hp]
    · exact ih (i + 1) roles p hp

theorem createSeatMappingsGo_seats : ∀ (ms : List MPlayer) (idx pc : Nat),
    (createSeatMappingsGo pc ms idx).map (·.gameSeat)
      = List.range' (idx + 1) (min ms.length (pc - idx)) := by
  intro ms
  induction ms with
  | nil =>
    intro idx pc
    simp [createSeatMappingsGo]
  | cons mp rest ih =>
    intro idx pc
    by_cases hlt : idx < pc
    · have harith : min (rest.length + 1) (pc - idx) = min rest.length (pc - idx - 1) + 1 := by
        omega
      simp only [createSeatMappingsGo, if_pos hlt, List.map_cons, ih, List.length_cons,
        harith]
      rfl
    · have h0 : min (rest.length + 1) (pc - idx) = 0 := by omega
      have h1 : min rest.length (pc - (idx + 1)) = 0 := by omega
      simp only [createSeatMappingsGo, if_neg hlt, ih, List.length_cons, h0, h1]
      rfl

theorem createSeatMappings_seats (ms : List MPlayer) (pc : Nat) :
    (createSeatMappings ms pc).map (·.gameSeat) = List.range' 1 (min ms.length pc) := by
  unfold createSeatMappings
  rw [createSeatMappingsGo_seats]
  simp

theorem createSeatMappings_length (ms : List MPlayer) (pc : Nat) :
    (createSeatMappings ms pc).length = min ms.length pc := by
  have := congrArg List.length (createSeatMappings_seats ms pc)
  simpa using this

theorem players_roles_concat (roles : List Role) (ms : List SeatMapping) (total : Nat)
    (htot : roles.length ≤ total) :
    ((humanPlayersGo roles ms 0
        ++ aiPlayersGo roles (humanPlayersGo roles ms 0).length
            (total - (humanPlayersGo roles ms 0).length)).map (·.role))
      = roles.map some
        ++ List.replicate (ms.length - roles.length) none
        ++ List.replicate (total - max ms.length roles.length) (some Role.villager) := by
  rw [List.map_append, humanGo_roles, aiGo_roles, humanGo_length, List.drop_zero]
  by_cases hle : ms.length ≤ roles.length
  · have hdt : (roles.drop ms.length).take (total - ms.length) = roles.drop ms.length :=
      List.take_of_length_le (by rw [List.length_drop]; omega)
    have h1 : ms.length - roles.length = 0 := by omega
    have h2 : (total - ms.length) - (roles.drop ms.length).length
        = total - max ms.length roles.length := by
      rw [List.length_drop]
      omega
    rw [hdt, h1, h2, List.replicate_zero, List.append_nil, ← List.append_assoc,
      ← List.map_append, List.take_append_drop]
    simp
  · have htk : roles.take ms.length = roles := List.take_of_length_le (by omega)
    have hdp : roles.drop ms.length = [] := List.drop_eq_nil_of_le (by omega)
    rw [htk, hdp]
    simp only [List.take_nil, List.map_nil, List.nil_append, List.length_nil, Nat.sub_zero]
    have harith : total - ms.length = total - max ms.length roles.length := by omega
    rw [harith]

/-- C7 (amended): initial game-state creation determines the total seat
count as `max(playerCount, 6)` and takes its role distribution from the
fixed table entry for `playerCount` *clamped to 4..12* — the table is
keyed by the participant count, not by the seat count.  AI seats beyond
the role list are padded with villagers, while human seats beyond the
role list (participant counts above 12) receive an *undefined* (absent)
role rather than a villager; and every row of the role table contains
exactly as many roles as the player count it is keyed by.  The role
multiset is characterized for every participant count: the clamped table
row, plus `playerCount - 12` absent roles, plus
`max(playerCount, 6) - max(playerCount, 4)` villagers. -/
theorem roleTable_spec :
    (∀ (mps : List MPlayer) (d : Option Difficulty) (base : GameState)
        (oracle : Nat → Nat),
      (createMultiplayerGameState mps (createSeatMappings mps mps.length) d base
          oracle).players.length = max mps.length 6)
    ∧ (∀ (mps : List MPlayer) (d : Option Difficulty) (base : GameState)
        (oracle : Nat → Nat),
      List.Perm
        ((createMultiplayerGameState mps (createSeatMappings mps mps.length) d base
            oracle).players.map (·.role))
        ((roleConfigs (min (max mps.length 4) 12)).map some
          ++ List.replicate (mps.length - 12) none
          ++ List.replicate (max mps.length 6 - max mps.length 4)
              (some Role.villager)))
    ∧ (∀ c : Nat, 4 ≤ c → c ≤ 12 → (roleConfigs c).length = c) := by
  have hplayers : ∀ (mps : List MPlayer) (d : Option Difficulty) (base : GameState)
      (oracle : Nat → Nat),
      (createMultiplayerGameState mps (createSeatMappings mps mps.length) d base
          oracle).players
        = humanPlayersGo (assignRoles mps.length oracle) (createSeatMappings mps mps.length) 0
          ++ aiPlayersGo (assignRoles mps.length oracle)
              (humanPlayersGo (assignRoles mps.length oracle)
                (createSeatMappings mps mps.length) 0).length
              (max mps.length 6
                - (humanPlayersGo (assignRoles mps.length oracle)
                    (createSeatMappings mps mps.length) 0).length) :=
    fun _ _ _ _ => rfl
  have hmslen : ∀ mps : List MPlayer,
      (createSeatMappings mps mps.length).length = mps.length := by
    intro mps
    rw [createSeatMappings_length]
    omega
  refine ⟨?_, ?_, roleConfigs_length⟩
  · intro mps d base oracle
    rw [hplayers, List.length_append, aiGo_length, humanGo_length, hmslen]
    omega
  · intro mps d base oracle
    have hrl : (assignRoles mps.length oracle).length = min (max mps.length 4) 12 :=
      assignRoles_length mps.length oracle
    have hconcat := players_roles_concat (assignRoles mps.length oracle)
      (createSeatMappings mps mps.length) (max mps.length 6) (by rw [hrl]; omega)
    rw [hplayers, hconcat, hmslen, hrl]
    have h1 : mps.length - min (max mps.length 4) 12 = mps.length - 12 := by omega
    have h2 : max mps.length 6 - max mps.length (min (max mps.length 4) 12)
        = max mps.length 6 - max mps.length 4 := by omega
    rw [h1, h2]
    exact List.Perm.append
      (List.Perm.append ((assignRoles_perm mps.length oracle).map some)
        (List.Perm.refl _))
      (List.Perm.refl _)

/-- C7 counterexample: with 4 participants the total seat count is
`max(4, 6) = 6`, but the role distribution stored in the six players is
*not* the table entry for seat count 6 (two werewolves, seer, witch, two
villagers) — it is the 4-player entry padded with villagers (one
werewolf, seer, four villagers). -/
theorem roleTable_cex :
    (createMultiplayerGameState mps4 (createSeatMappings mps4 4) none base0
        (fun _ => 0)).players.length = 6
    ∧ ¬ List.Perm
        ((createMultiplayerGameState mps4 (createSeatMappings mps4 4) none base0
            (fun _ => 0)).players.map (·.role))
        ((roleConfigs 6).map some)
    ∧ ((createMultiplayerGameState mps4 (createSeatMappings mps4 4) none base0
        (fun _ => 0)).players.map (·.role)).count (some Role.werewolf) = 1 := by
  decide

/-- Witness for `roleTable_spec` at the concrete 4-participant list
(below the minimum seat count: villager padding) and the concrete
13-participant list (above the table range: one absent role, no villager
padding), both with the constant-zero shuffle oracle, plus the table row
at 10. -/
theorem roleTable_spec_witness :
    ((createMultiplayerGameState mps4 (createSeatMappings mps4 mps4.length) none base0
        (fun _ => 0)).players.length = max mps4.length 6)
    ∧ List.Perm
        ((createMultiplayerGameState mps4 (createSeatMappings mps4 mps4.length) none base0
            (fun _ => 0)).players.map (·.role))
        ((roleConfigs (min (max mps4.length 4) 12)).map some
          ++ List.replicate (mps4.length - 12) none
          ++ List.replicate (max mps4.length 6 - max mps4.length 4)
              (some Role.villager))
    ∧ List.Perm
        ((createMultiplayerGameState mps13 (createSeatMappings mps13 mps13.length) none base0
            (fun _ => 0)).players.map (·.role))
        ((roleConfigs (min (max mps13.length 4) 12)).map some
          ++ List.replicate (mps13.length - 12) none
          ++ List.replicate (max mps13.length 6 - max mps13.length 4)
              (some Role.villager))
    ∧ (4 ≤ 10 ∧ 10 ≤ 12 ∧ (roleConfigs 10).length = 10) :=
  ⟨roleTable_spec.1 mps4 none base0 (fun _ => 0),
   roleTable_spec.2.1 mps4 none base0 (fun _ => 0),
   roleTable_spec.2.1 mps13 none base0 (fun _ => 0),
   ⟨by decide, by decide, roleTable_spec.2.2 10 (by decide) (by decide)⟩⟩

/-- C6: for any 10 multiplayer participants, `createSeatMappings` with
`playerCount = 10` followed by multiplayer game-state creation yields
exactly 10 players, seated 1..10 in join order with no gaps or
duplicates, all alive, whose role counts match the 10-player table row
(3 werewolves, 1 seer, 1 witch, 1 hunter, 1 guard, 3 villagers) — for
every shuffle-oracle outcome. -/
theorem tenPlayer_roundtrip_spec :
    ∀ (mps : List MPlayer) (d : Option Difficulty) (base : GameState)
      (oracle : Nat → Nat), mps.length = 10 →
    (createMultiplayerGameState mps (createSeatMappings mps 10) d base
        oracle).players.length = 10
    ∧ (createMultiplayerGameState mps (createSeatMappings mps 10) d base
        oracle).players.map (·.seat) = List.range' 1 10
    ∧ (∀ p ∈ (createMultiplayerGameState mps (createSeatMappings mps 10) d base
        oracle).players, p.alive = true)
    ∧ ((createMultiplayerGameState mps (createSeatMappings mps 10) d base
        oracle).players.map (·.role)).count (some Role.werewolf) = 3
    ∧ ((createMultiplayerGameState mps (createSeatMappings mps 10) d base
        oracle).players.map (·.role)).count (some Role.seer) = 1
    ∧ ((createMultiplayerGameState mps (createSeatMappings mps 10) d base
        oracle).players.map (·.role)).count (some Role.witch) = 1
    ∧ ((createMultiplayerGameState mps (createSeatMappings mps 10) d base
        oracle).players.map (·.role)).count (some Role.hunter) = 1
    ∧ ((createMultiplayerGameState mps (createSeatMappings mps 10) d base
        oracle).players.map (·.role)).count (some Role.guard) = 1
    ∧ ((createMultiplayerGameState mps (createSeatMappings mps 10) d base
        oracle).players.map (·.role)).count (some Role.villager) = 3 := by
  intro mps d base oracle h10
  have hmslen : (createSeatMappings mps 10).length = 10 := by
    rw [createSeatMappings_length, h10]
    omega
  have hhlen : (humanPlayersGo (assignRoles mps.length oracle)
      (createSeatMappings mps 10) 0).length = 10 := by
    rw [humanGo_length, hmslen]
  have hzero : max mps.length 6
      - (humanPlayersGo (assignRoles mps.length oracle)
          (createSeatMappings mps 10) 0).length = 0 := by
    rw [hhlen, h10]
    omega
  have hplist : (createMultiplayerGameState mps (createSeatMappings mps 10) d base
      oracle).players
      = humanPlayersGo (assignRoles mps.length oracle) (createSeatMappings mps 10) 0 := by
    show humanPlayersGo (assignRoles mps.length oracle) (createSeatMappings mps 10) 0
        ++ aiPlayersGo (assignRoles mps.length oracle)
            (humanPlayersGo (assignRoles mps.length oracle)
              (createSeatMappings mps 10) 0).length
            (max mps.length 6
              - (humanPlayersGo (assignRoles mps.length oracle)
                  (createSeatMappings mps 10) 0).length)
        = _
    rw [hzero]
    exact List.append_nil _
  have hroles_len : (assignRoles mps.length oracle).length = 10 := by
    rw [assignRoles_length, h10]
    omega
  have hroles : (humanPlayersGo (assignRoles mps.length oracle)
      (createSeatMappings mps 10) 0).map (·.role)
      = (assignRoles mps.length oracle).map some := by
    rw [humanGo_roles, hmslen, List.drop_zero, hroles_len]
    rw [List.take_of_length_le (by rw [hroles_len] : (assignRoles mps.length oracle).length ≤ 10)]
    simp
  have hperm : List.Perm
      ((createMultiplayerGameState mps (createSeatMappings mps 10) d base
          oracle).players.map (·.role))
      ((roleConfigs 10).map some) := by
    rw [hplist, hroles]
    have hmap := (assignRoles_perm mps.length oracle).map some
    have harg : min (max mps.length 4) 12 = 10 := by
      rw [h10]
      omega
    rw [harg] at hmap
    exact hmap
  refine ⟨?_, ?_, ?_, ?_, ?_, ?_, ?_, ?_, ?_⟩
  · rw [hplist, hhlen]
  · rw [hplist, humanGo_seats, createSeatMappings_seats, h10]
    simp
  · intro p hp
    rw [hplist] at hp
    exact humanGo_alive _ _ _ p hp
  · unfold List.count
    refine (hperm.countP_eq _).trans ?_
    decide
  · unfold List.count
    refine (hperm.countP_eq _).trans ?_
    decide
  · unfold List.count
    refine (hperm.countP_eq _).trans ?_
    decide
  · unfold List.count
    refine (hperm.countP_eq _).trans ?_
    decide
  · unfold List.count
    refine (hperm.countP_eq _).trans ?_
    decide
  · unfold List.count
    refine (hperm.countP_eq _).trans ?_
    decide

/-- Witness for `tenPlayer_roundtrip_spec` at the concrete 10-participant
list and the constant-zero shuffle oracle. -/
theorem tenPlayer_roundtrip_spec_witness :
    mps10.length = 10
    ∧ (createMultiplayerGameState mps10 (createSeatMappings mps10 10) none base0
        (fun _ => 0)).players.length = 10
    ∧ (createMultiplayerGameState mps10 (createSeatMappings mps10 10) none base0
        (fun _ => 0)).players.map (·.seat) = List.range' 1 10
    ∧ ((createMultiplayerGameState mps10 (createSeatMappings mps10 10) none base0
        (fun _ => 0)).players.map (·.role)).count (some Role.werewolf) = 3 :=
  ⟨by decide,
   (tenPlayer_roundtrip_spec mps10 none base0 (fun _ => 0) (by decide)).1,
   (tenPlayer_roundtrip_spec mps10 none base0 (fun _ => 0) (by decide)).2.1,
   (tenPlayer_roundtrip_spec mps10 none base0 (fun _ => 0) (by decide)).2.2.2.1⟩

end Wolfcha
